import Mathlib

/-!
Verification of the link-state routing engine of the LinkStateProtocol
repository (TypeScript sources in src/link-state-protocol/src/models:
Node.ts, Network class in Simulation.ts, types.ts).

The TypeScript classes are embedded shallowly:
* a JavaScript Map<number, V> is modelled as an insertion-ordered
  association list (`JSMap`): `set` replaces the value in place for an
  existing key and appends a fresh key at the end, `delete` removes the
  key, iteration follows list order — exactly the JS Map contract.
  JS Map keys are unique, so removing every matching key coincides with
  Map.delete; `del` is defined with filter so that its lemmas need no
  key-uniqueness side conditions.
* JavaScript numbers used as distances are modelled as `Option Nat`
  (`none` = Infinity); the falsy-zero coercions `x || Infinity` and
  `x || 0` of the source are modelled verbatim (`jsGetOrInf`,
  `jsGetOr0`).
* the presentation-only fields (`position`, `color`) of Node are
  omitted; they never influence the engine.
-/

namespace LSProto

/-! ## JS Map as an insertion-ordered association list -/

namespace JSMap

def lookup {α : Type} : List (Nat × α) → Nat → Option α
  | [], _ => none
  | (k, v) :: rest, key => if k = key then some v else lookup rest key

def hasKey {α : Type} (m : List (Nat × α)) (key : Nat) : Bool :=
  (lookup m key).isSome

/-- JS `map.set(key, v)`: overwrite in place, or append a new entry. -/
def set {α : Type} : List (Nat × α) → Nat → α → List (Nat × α)
  | [], key, v => [(key, v)]
  | (k, w) :: rest, key, v =>
    if k = key then (k, v) :: rest else (k, w) :: set rest key v

/-- JS `map.delete(key)` (keys are unique in a JS Map, so removing every
matching entry agrees with removing the one entry). -/
def del {α : Type} (m : List (Nat × α)) (key : Nat) : List (Nat × α) :=
  m.filter (fun e => e.1 ≠ key)

/-- Lookup through two map levels. -/
def lookup2 {α : Type} (m : List (Nat × List (Nat × α))) (k k2 : Nat) : Option α :=
  match lookup m k with
  | none => none
  | some inner => lookup inner k2

end JSMap

/-! ## Data model (types.ts) -/

structure Route where
  nextHop : Nat
  cost : Nat
deriving Repr, DecidableEq

/-- `LSPData` of types.ts: `sequenceNumber` is an optional field. -/
structure LSPData where
  nodeId : Nat
  links : List (Nat × Nat)
  sequenceNumber : Option Nat
deriving Repr, DecidableEq

/-- The dynamically-typed payload of an LSP packet as `receiveLSP` reads it:
`nodeId`, `links`, and a `ttl` that no sender in the source ever sets.
An absent `ttl` (undefined) and a NaN `ttl` (undefined - 1) behave
identically in every use (`x <= 0` is false, `x - 1` is NaN), so both are
modelled as `none`. -/
structure LSPPayload where
  nodeId : Nat
  links : List (Nat × Nat)
  sequenceNumber : Option Nat
  ttl : Option Int
deriving Repr, DecidableEq

inductive PacketData where
  | hello (senderId : Nat) (cost : Nat) (lsp : LSPData)
  | lspD (d : LSPPayload)
deriving Repr, DecidableEq

inductive PacketType where
  | HELLO
  | LSP
deriving Repr, DecidableEq

structure Packet where
  ptype : PacketType
  pfrom : Nat
  pto : Nat
  data : PacketData
deriving Repr, DecidableEq

/-- JS `ttl <= 0`: false for undefined/NaN. -/
def ttlExpired : Option Int → Bool
  | some t => decide (t ≤ 0)
  | none => false

/-- JS `ttl - 1`: NaN when ttl is undefined or NaN. -/
def ttlDec : Option Int → Option Int
  | some t => some (t - 1)
  | none => none

/-! ## Node state (Node.ts) -/

structure Node where
  id : Nat
  links : List (Nat × Nat)
  topologyDatabase : List (Nat × List (Nat × Nat))
  routingTable : List (Nat × Route)
  active : Bool
  lspSequenceNumber : Nat
  lsp : LSPData
deriving Repr, DecidableEq

/-- The Node constructor. -/
def Node.new (id : Nat) : Node :=
  { id := id
    links := []
    topologyDatabase := []
    routingTable := []
    active := true
    lspSequenceNumber := 0
    lsp := { nodeId := id, links := [], sequenceNumber := some 0 } }

/-- `map.get(k)?.set(k2, v)`: update the inner map of an existing entry. -/
def setInner (m : List (Nat × List (Nat × Nat))) (k k2 v : Nat) :
    List (Nat × List (Nat × Nat)) :=
  match JSMap.lookup m k with
  | none => m
  | some inner => JSMap.set m k (JSMap.set inner k2 v)

/-- `map.get(k)?.delete(k2)`. -/
def delInner (m : List (Nat × List (Nat × Nat))) (k k2 : Nat) :
    List (Nat × List (Nat × Nat)) :=
  match JSMap.lookup m k with
  | none => m
  | some inner => JSMap.set m k (JSMap.del inner k2)

def Node.updateLSP (n : Node) : Node :=
  let seq := n.lspSequenceNumber + 1
  { n with
      lspSequenceNumber := seq
      lsp := { nodeId := n.id, links := n.links, sequenceNumber := some seq } }

/-- `Node.addLink` (only the target's id is ever read from the target). -/
def Node.addLink (n : Node) (targetId cost : Nat) : Node :=
  if JSMap.hasKey n.links targetId then n
  else
    let n1 := { n with links := JSMap.set n.links targetId cost }
    let n2 :=
      if JSMap.hasKey n1.topologyDatabase n1.id then n1
      else { n1 with topologyDatabase := JSMap.set n1.topologyDatabase n1.id [] }
    let n3 := { n2 with topologyDatabase := setInner n2.topologyDatabase n2.id targetId cost }
    n3.updateLSP

def Node.removeLink (n : Node) (targetId : Nat) : Node :=
  if JSMap.hasKey n.links targetId then
    let n1 := { n with links := JSMap.del n.links targetId }
    let n2 :=
      if JSMap.hasKey n1.topologyDatabase n1.id
      then { n1 with topologyDatabase := delInner n1.topologyDatabase n1.id targetId }
      else n1
    n2.updateLSP
  else n

/-! ## Dijkstra (Node.calculateRoutingTable)

Distances stored in the JS `distances` map are modelled as `Option Nat`
with `none` standing for a stored `Infinity`. -/

abbrev EDist := Option Nat

/-- JS `distances.get(x) || Infinity`: a missing key (undefined), a stored
Infinity, and a stored 0 (falsy!) all coerce to Infinity. -/
def jsGetOrInf (distances : List (Nat × EDist)) (k : Nat) : EDist :=
  match JSMap.lookup distances k with
  | some (some d) => if d = 0 then none else some d
  | some none => none
  | none => none

/-- JS `distances.get(x) || 0`: a missing key coerces to 0, a stored
Infinity stays Infinity, a stored 0 coerces to 0 (which it already is). -/
def jsGetOr0 (distances : List (Nat × EDist)) (k : Nat) : EDist :=
  match JSMap.lookup distances k with
  | some (some d) => some d
  | some none => none
  | none => some 0

/-- `a < b` on distances, Infinity compares as in JS. -/
def ltE : EDist → EDist → Bool
  | some x, some y => decide (x < y)
  | some _, none => true
  | none, _ => false

def addE : EDist → Nat → EDist
  | some x, c => some (x + c)
  | none, _ => none

/-- The selection loop: find the unvisited node of smallest
`distances.get(nodeId) || Infinity`; `none` when every candidate is
Infinity (the JS loop then leaves `current` null and breaks). -/
def selectMin (distances : List (Nat × EDist)) (unvisited : List Nat) : Option Nat :=
  (unvisited.foldl
    (fun acc nodeId =>
      let d := jsGetOrInf distances nodeId
      if ltE d acc.2 then (some nodeId, d) else acc)
    ((none : Option Nat), (none : EDist))).1

/-- One relaxation step of the inner `for` loop. -/
def relaxStep (current : Nat) (unvisited : List Nat)
    (acc : List (Nat × EDist) × List (Nat × Nat)) (link : Nat × Nat) :
    List (Nat × EDist) × List (Nat × Nat) :=
  if unvisited.contains link.1 then
    let newDistance := addE (jsGetOr0 acc.1 current) link.2
    if ltE newDistance (jsGetOrInf acc.1 link.1) then
      (JSMap.set acc.1 link.1 newDistance, JSMap.set acc.2 link.1 current)
    else acc
  else acc

/-- The `while (unvisited.size > 0)` loop.  Every iteration removes the
selected node from `unvisited` (or breaks), so the loop runs at most
`unvisited.length` times; the recursion is written on that fuel so that it
stays structural.  With zero fuel `unvisited` is already empty and
`selectMin` over it would return `none` anyway, so the two exits
coincide. -/
def dijkstraLoop (tdb : List (Nat × List (Nat × Nat))) :
    Nat → List (Nat × EDist) → List (Nat × Nat) → List Nat →
    List (Nat × EDist) × List (Nat × Nat)
  | 0, distances, previous, _ => (distances, previous)
  | fuel + 1, distances, previous, unvisited =>
    match selectMin distances unvisited with
    | none => (distances, previous)
    | some current =>
      let unvisited2 := unvisited.erase current
      let dp :=
        match JSMap.lookup tdb current with
        | none => (distances, previous)
        | some neighbors => neighbors.foldl (relaxStep current unvisited2) (distances, previous)
      dijkstraLoop tdb fuel dp.1 dp.2 unvisited2

/-- The back-walk along `previous` that finds the first hop.  The JS
`while` loop visits a strictly descending chain of `previous` entries, so
`previous.length + 1` steps of fuel always suffice. -/
def walkPrev (selfId : Nat) (previous : List (Nat × Nat)) :
    Nat → Nat × Nat → Nat × Nat
  | 0, st => st
  | fuel + 1, (currentNode, nextHop) =>
    match JSMap.lookup previous currentNode with
    | none => (currentNode, nextHop)
    | some pv =>
      if pv = selfId then (currentNode, nextHop)
      else walkPrev selfId previous fuel (pv, pv)

/-- The final loop that fills the routing table. -/
def buildRoutingTable (selfId : Nat) (distances : List (Nat × EDist))
    (previous : List (Nat × Nat)) : List (Nat × Route) :=
  distances.foldl
    (fun rt entry =>
      if entry.1 = selfId then rt
      else
        match entry.2 with
        | none => rt
        | some d =>
          let walked := walkPrev selfId previous (previous.length + 1) (entry.1, entry.1)
          if JSMap.hasKey previous walked.1
          then JSMap.set rt entry.1 { nextHop := walked.2, cost := d }
          else rt)
    []

/-- JS `Set.add` (no duplicates, insertion order). -/
def addSet (u : List Nat) (x : Nat) : List Nat :=
  if u.contains x then u else u ++ [x]

def Node.calculateRoutingTable (n : Node) : Node :=
  if n.topologyDatabase.length = 0 then { n with routingTable := [] }
  else
    let distances : List (Nat × EDist) :=
      n.topologyDatabase.foldl (fun m e => JSMap.set m e.1 none) []
    let unvisited : List Nat :=
      n.topologyDatabase.foldl (fun u e => addSet u e.1) []
    let du :=
      n.links.foldl
        (fun (acc : List (Nat × EDist) × List Nat) lk =>
          if JSMap.hasKey acc.1 lk.1 then acc
          else (JSMap.set acc.1 lk.1 none, addSet acc.2 lk.1))
        (distances, unvisited)
    let distances2 := JSMap.set du.1 n.id (some 0)
    let dp := dijkstraLoop n.topologyDatabase du.2.length distances2 [] du.2
    { n with routingTable := buildRoutingTable n.id dp.1 dp.2 }

/-! ## Network (the Network class bundled in Simulation.ts) -/

structure Network where
  nodes : List (Nat × Node)
  packets : List Packet
  nextNodeId : Nat
deriving Repr, DecidableEq

def Network.new : Network :=
  { nodes := [], packets := [], nextNodeId := 1 }

def Network.getNode (net : Network) (nodeId : Nat) : Option Node :=
  JSMap.lookup net.nodes nodeId

def Network.setNode (net : Network) (nodeId : Nat) (n : Node) : Network :=
  { net with nodes := JSMap.set net.nodes nodeId n }

/-- In JS the Node methods mutate heap objects; sequential updates of the
id-indexed map reproduce that, including aliasing when both endpoints of
an operation are the same node. -/
def Network.modifyNode (net : Network) (nodeId : Nat) (f : Node → Node) : Network :=
  match net.getNode nodeId with
  | some n => net.setNode nodeId (f n)
  | none => net

/-- `createNode` (the position argument is presentation-only). -/
def Network.createNode (net : Network) : Network × Nat :=
  let id := net.nextNodeId
  ({ net with
      nodes := JSMap.set net.nodes id (Node.new id)
      nextNodeId := id + 1 }, id)

def Network.createLink (net : Network) (nodeId1 nodeId2 cost : Nat) :
    Network × Bool :=
  match net.getNode nodeId1, net.getNode nodeId2 with
  | some _, some _ =>
    let net1 := net.modifyNode nodeId1 (fun n => n.addLink nodeId2 cost)
    let net2 := net1.modifyNode nodeId2 (fun n => n.addLink nodeId1 cost)
    let net3 := net2.modifyNode nodeId1 Node.calculateRoutingTable
    let net4 := net3.modifyNode nodeId2 Node.calculateRoutingTable
    (net4, true)
  | _, _ => (net, false)

def Network.removeLink (net : Network) (nodeId1 nodeId2 : Nat) :
    Network × Bool :=
  match net.getNode nodeId1, net.getNode nodeId2 with
  | some _, some _ =>
    let net1 := net.modifyNode nodeId1 (fun n => n.removeLink nodeId2)
    let net2 := net1.modifyNode nodeId2 (fun n => n.removeLink nodeId1)
    let net3 := net2.modifyNode nodeId1 Node.calculateRoutingTable
    let net4 := net3.modifyNode nodeId2 Node.calculateRoutingTable
    (net4, true)
  | _, _ => (net, false)

/-- `removeNode` loop body, first statement: drop the direct link. -/
def cleanupStep1 (nodeId : Nat) (node : Node) : Node :=
  if JSMap.hasKey node.links nodeId then node.removeLink nodeId else node

/-- Second statement: drop the topology-database entry keyed by the node. -/
def cleanupStep2 (nodeId : Nat) (node : Node) : Node :=
  if JSMap.hasKey node.topologyDatabase nodeId
  then { node with topologyDatabase := JSMap.del node.topologyDatabase nodeId }
  else node

/-- Third statement: drop the node from inside every entry. -/
def cleanupStep3 (nodeId : Nat) (node : Node) : Node :=
  { node with
      topologyDatabase :=
        node.topologyDatabase.map
          (fun (e : Nat × List (Nat × Nat)) => (e.1, JSMap.del e.2 nodeId)) }

/-- Fourth statement: drop the routing-table entry. -/
def cleanupStep4 (nodeId : Nat) (node : Node) : Node :=
  if JSMap.hasKey node.routingTable nodeId
  then { node with routingTable := JSMap.del node.routingTable nodeId }
  else node

/-- The per-node cleanup done inside the `removeNode` loop (the loop body
reads and writes each node independently, so a map over the entries is
faithful; the loop also visits the node being removed, which is deleted
from the map afterwards).  The body finishes with the routing-table
recomputation. -/
def removeNodeCleanup (nodeId : Nat) (node : Node) : Node :=
  (cleanupStep4 nodeId (cleanupStep3 nodeId (cleanupStep2 nodeId
    (cleanupStep1 nodeId node)))).calculateRoutingTable

def Network.removeNode (net : Network) (nodeId : Nat) : Network × Bool :=
  if JSMap.hasKey net.nodes nodeId then
    let nodes := net.nodes.map (fun e => (e.1, removeNodeCleanup nodeId e.2))
    ({ net with nodes := JSMap.del nodes nodeId }, true)
  else (net, false)

/-! ## Packet emission and reception (Node.ts methods taking the network) -/

def Node.sendHelloPackets (n : Node) (net : Network) : List Packet :=
  if n.active then
    n.links.foldl
      (fun ps lk =>
        match net.getNode lk.1 with
        | some neighbor =>
          if neighbor.active then
            ps ++ [{ ptype := .HELLO, pfrom := n.id, pto := lk.1,
                     data := .hello n.id lk.2 n.lsp }]
          else ps
        | none => ps)
      []
  else []

/-- `sendLSPs`: one packet per active neighbor, all sharing one payload
snapshot.  The payload is built from `nodeId` and `links` only — the
sequence number is NOT included (`sequenceNumber` stays absent), and no
`ttl` is ever set. -/
def Node.sendLSPs (n : Node) (net : Network) : List Packet :=
  if n.active then
    let lspData : LSPPayload :=
      { nodeId := n.id, links := n.links, sequenceNumber := none, ttl := none }
    n.links.foldl
      (fun ps lk =>
        match net.getNode lk.1 with
        | some neighbor =>
          if neighbor.active then
            ps ++ [{ ptype := .LSP, pfrom := n.id, pto := lk.1, data := .lspD lspData }]
          else ps
        | none => ps)
      []
  else []

/-- `receiveLSP`.  The source computes an `isNewInfo` flag during the
merge but never reads it afterwards: forwarding happens regardless.  The
`ttl <= 0` early return only fires for an actual number `<= 0`; the
`ttl` is undefined on every packet the source ever sends, and
`undefined <= 0` is false.  The source never calls this with a HELLO
packet; that case is mapped to no effect. -/
def Node.receiveLSP (n : Node) (p : Packet) (net : Network) : Node × List Packet :=
  if n.active then
    match p.data with
    | .hello _ _ _ => (n, [])
    | .lspD d =>
      if ttlExpired d.ttl then (n, [])
      else
        let tdb :=
          if JSMap.hasKey n.topologyDatabase d.nodeId then n.topologyDatabase
          else JSMap.set n.topologyDatabase d.nodeId []
        let tdb :=
          d.links.foldl
            (fun tdb lk =>
              if JSMap.lookup2 tdb d.nodeId lk.1 ≠ some lk.2
              then setInner tdb d.nodeId lk.1 lk.2
              else tdb)
            tdb
        let forwards :=
          n.links.foldl
            (fun ps lk =>
              if lk.1 ≠ p.pfrom then
                match net.getNode lk.1 with
                | some neighbor =>
                  if neighbor.active then
                    ps ++ [{ ptype := .LSP, pfrom := n.id, pto := lk.1,
                             data := .lspD { d with ttl := ttlDec d.ttl } }]
                  else ps
                | none => ps
              else ps)
            []
        ({ n with topologyDatabase := tdb }, forwards)
  else (n, [])

/-! ## Simulation phases (Network class, Simulation.ts) -/

def Network.simulateHelloPackets (net : Network) : Network × List Packet :=
  let allPackets :=
    net.nodes.foldl
      (fun ps e => if e.2.active then ps ++ e.2.sendHelloPackets net else ps)
      []
  ({ net with packets := allPackets }, allPackets)

/-- One iteration of the delivery loop of `simulateLSPs`: the packet
goes to its `to` node via `receiveLSP`; the forward packets it produces
are only collected. -/
def deliverStep (acc : Network × List Packet) (p : Packet) :
    Network × List Packet :=
  match acc.1.getNode p.pto with
  | some targetNode =>
    if targetNode.active then
      let res := targetNode.receiveLSP p acc.1
      (acc.1.setNode p.pto res.1, acc.2 ++ res.2)
    else acc
  | none => acc

/-- The delivery loop of `simulateLSPs`. -/
def Network.deliverLSPs (net : Network) (ps : List Packet) :
    Network × List Packet :=
  ps.foldl deliverStep (net, [])

/-- The generation loop of `simulateLSPs`: every active node emits its
LSPs. -/
def Network.generateLSPs (net : Network) : List Packet :=
  net.nodes.foldl
    (fun ps e => if e.2.active then ps ++ e.2.sendLSPs net else ps)
    []

/-- `simulateLSPs`: generate everyone's LSPs, deliver them once, and
append the collected forward packets to the returned list.  The forward
packets are never themselves delivered. -/
def Network.simulateLSPs (net : Network) : Network × List Packet :=
  let allPackets := net.generateLSPs
  let delivered := net.deliverLSPs allPackets
  let all := allPackets ++ delivered.2
  ({ delivered.1 with packets := all }, all)

def Network.createInitialTopology (net : Network) : Network :=
  let net := (net.createNode).1
  let net := (net.createNode).1
  let net := (net.createNode).1
  let net := (net.createNode).1
  let net := (net.createNode).1
  let net := (net.createLink 1 2 1).1
  let net := (net.createLink 2 3 1).1
  let net := (net.createLink 3 4 1).1
  let net := (net.createLink 4 1 1).1
  let net := (net.createLink 5 1 2).1
  let net := (net.createLink 5 3 2).1
  net

/-! ## Sequences of engine operations -/

inductive NetOp where
  | opCreateNode
  | opRemoveNode (nodeId : Nat)
  | opCreateLink (a b cost : Nat)
  | opRemoveLink (a b : Nat)
  | opHello
  | opFlood
deriving Repr, DecidableEq

def applyOp (net : Network) : NetOp → Network
  | .opCreateNode => (net.createNode).1
  | .opRemoveNode i => (net.removeNode i).1
  | .opCreateLink a b c => (net.createLink a b c).1
  | .opRemoveLink a b => (net.removeLink a b).1
  | .opHello => (net.simulateHelloPackets).1
  | .opFlood => (net.simulateLSPs).1

def runOps : Network → List NetOp → Network
  | net, [] => net
  | net, op :: rest => runOps (applyOp net op) rest

/-! ## Concrete scenario states -/

/-- The network built by `createInitialTopology` on a fresh `Network`. -/
def initialNetwork : Network := Network.new.createInitialTopology

/-- The state after the discovery phase. -/
def afterDiscovery : Network := (initialNetwork.simulateHelloPackets).1

/-- The state after the flooding phase that follows discovery. -/
def afterFlooding : Network := (afterDiscovery.simulateLSPs).1

/-- The packet list returned by that flooding phase. -/
def floodingPackets : List Packet := (afterDiscovery.simulateLSPs).2

/-- Node 1 of the initial topology with a fully converged topology
database: every node of the graph is recorded with its true link table
(this is the state the spec's flooding would reach). -/
def convergedNode1 : Node :=
  { id := 1
    links := [(2, 1), (4, 1), (5, 2)]
    topologyDatabase :=
      [(1, [(2, 1), (4, 1), (5, 2)]),
       (2, [(1, 1), (3, 1)]),
       (3, [(2, 1), (4, 1), (5, 2)]),
       (4, [(3, 1), (1, 1)]),
       (5, [(1, 2), (3, 2)])]
    routingTable := []
    active := true
    lspSequenceNumber := 3
    lsp := { nodeId := 1, links := [(2, 1), (4, 1), (5, 2)], sequenceNumber := some 3 } }

/-- Node 1 as it stands after the flooding phase (its topology database
already holds node 2's full advertisement `[(1,1),(3,1)]`). -/
def node1AfterFlooding : Node := (afterFlooding.getNode 1).getD (Node.new 1)

/-- A duplicate LSA packet: node 2's advertisement, byte for byte what
node 1 has already recorded. -/
def duplicateLSP : Packet :=
  { ptype := .LSP
    pfrom := 2
    pto := 1
    data := .lspD { nodeId := 2, links := [(1, 1), (3, 1)], sequenceNumber := none, ttl := none } }

/-- The sequence number carried in an LSP packet's payload. -/
def Packet.lspSeq (p : Packet) : Option Nat :=
  match p.data with
  | .lspD d => d.sequenceNumber
  | .hello _ _ _ => none

/-- Node 1 of the initial topology (three links were added, so its
sequence number is 3). -/
def node1Initial : Node := (initialNetwork.getNode 1).getD (Node.new 1)

/-- The originator recorded in an LSP packet's payload. -/
def Packet.lspOrig (p : Packet) : Option Nat :=
  match p.data with
  | .lspD d => some d.nodeId
  | .hello _ _ _ => none

/-! ## Link-symmetry invariant -/

/-- The link-symmetry property of a network state. -/
def linkSym (net : Network) : Prop :=
  ∀ a na b nb, JSMap.lookup net.nodes a = some na →
    JSMap.lookup net.nodes b = some nb → a ≠ b →
    JSMap.lookup na.links b = JSMap.lookup nb.links a

/-- Every link-table key names an existing node. -/
def linksClosed (net : Network) : Prop :=
  ∀ a na j, JSMap.lookup net.nodes a = some na →
    JSMap.hasKey na.links j = true → JSMap.hasKey net.nodes j = true

/-- Every allocated id is below the allocation counter. -/
def idsFresh (net : Network) : Prop :=
  ∀ a, JSMap.hasKey net.nodes a = true → a < net.nextNodeId

/-- The inductive invariant carried across all engine operations. -/
def NetInv (net : Network) : Prop :=
  linkSym net ∧ linksClosed net ∧ idsFresh net

/-- A concrete operation sequence exercising every kind of engine
operation. -/
def symDemoOps : List NetOp :=
  [.opCreateNode, .opCreateNode, .opCreateNode,
   .opCreateLink 1 2 7, .opCreateLink 2 3 4, .opRemoveNode 3,
   .opHello, .opFlood]

def symDemoNode1 : Node := ((runOps Network.new symDemoOps).getNode 1).getD (Node.new 1)

def symDemoNode2 : Node := ((runOps Network.new symDemoOps).getNode 2).getD (Node.new 2)

namespace JSMap

@[simp] theorem lookup_nil {α : Type} (key : Nat) :
    lookup ([] : List (Nat × α)) key = none := rfl

theorem lookup_set_self {α : Type} (m : List (Nat × α)) (k : Nat) (v : α) :
    lookup (set m k v) k = some v := by
  induction m with
  | nil => simp [set, lookup]
  | cons e rest ih =>
    by_cases h : e.1 = k <;> simp [set, lookup, h, ih]

theorem lookup_set_ne {α : Type} (m : List (Nat × α)) (k j : Nat) (v : α)
    (h : j ≠ k) : lookup (set m k v) j = lookup m j := by
  induction m with
  | nil => simp [set, lookup, Ne.symm h]
  | cons e rest ih =>
    by_cases hk : e.1 = k
    · subst hk
      simp [set, lookup, Ne.symm h]
    · simp only [set, if_neg hk, lookup, ih]

theorem lookup_del_self {α : Type} (m : List (Nat × α)) (k : Nat) :
    lookup (del m k) k = none := by
  induction m with
  | nil => rfl
  | cons e rest ih =>
    by_cases h : e.1 = k
    · simpa [del, List.filter_cons, h] using ih
    · simpa [del, List.filter_cons, h, lookup] using ih

theorem lookup_del_ne {α : Type} (m : List (Nat × α)) (k j : Nat)
    (h : j ≠ k) : lookup (del m k) j = lookup m j := by
  induction m with
  | nil => rfl
  | cons e rest ih =>
    by_cases hk : e.1 = k
    · simpa [del, List.filter_cons, hk, lookup, Ne.symm h] using ih
    · by_cases hj : e.1 = j
      · simp [del, List.filter_cons, hk, lookup, hj, h]
      · simpa [del, List.filter_cons, hk, lookup, hj] using ih

theorem del_eq_of_not_hasKey {α : Type} (m : List (Nat × α)) (k : Nat)
    (h : hasKey m k = false) : del m k = m := by
  induction m with
  | nil => rfl
  | cons e rest ih =>
    by_cases hk : e.1 = k
    · simp [hasKey, lookup, hk] at h
    · have hrest : hasKey rest k = false := by
        simpa [hasKey, lookup, hk] using h
      simp [del, List.filter_cons, hk]
      simpa [del] using ih hrest

theorem hasKey_iff_lookup {α : Type} (m : List (Nat × α)) (k : Nat) :
    hasKey m k = true ↔ ∃ v, lookup m k = some v := by
  simp [hasKey, Option.isSome_iff_exists]

theorem hasKey_false_iff_lookup {α : Type} (m : List (Nat × α)) (k : Nat) :
    hasKey m k = false ↔ lookup m k = none := by
  cases h : lookup m k <;> simp [hasKey, h]

theorem lookup_map_value {α β : Type} (m : List (Nat × α)) (f : Nat → α → β) (j : Nat) :
    lookup (m.map (fun e => (e.1, f e.1 e.2))) j = (lookup m j).map (f j) := by
  induction m with
  | nil => rfl
  | cons e rest ih =>
    by_cases h : e.1 = j <;> simp [lookup, h, ih]

end JSMap

theorem lookup_foldl_set_none {β : Type} (xs : List (Nat × β))
    (m : List (Nat × EDist))
    (hm : ∀ k v, JSMap.lookup m k = some v → v = none) :
    ∀ k v, JSMap.lookup (xs.foldl (fun m e => JSMap.set m e.1 none) m) k = some v →
      v = none := by
  induction xs generalizing m with
  | nil => exact hm
  | cons x rest ih =>
    refine ih _ ?_
    intro k v hv
    by_cases hk : k = x.1
    · subst hk
      rw [JSMap.lookup_set_self] at hv
      exact (Option.some_inj.mp hv).symm
    · rw [JSMap.lookup_set_ne _ _ _ _ hk] at hv
      exact hm k v hv

/-! ## The routing-table computation never routes

In the selection loop the source reads `distances.get(nodeId) || Infinity`.
The seed `distances.set(this.id, 0)` stores the falsy number 0, so the
coercion turns the only finite distance into Infinity; no vertex is ever
selected and the freshly cleared routing table is returned empty. -/

theorem foldl_fix {α β : Type} (f : β → α → β) (h : ∀ b a, f b a = b)
    (l : List α) (b : β) : l.foldl f b = b := by
  induction l generalizing b with
  | nil => rfl
  | cons x rest ih => rw [List.foldl_cons, h]; exact ih _

theorem lookup_linksFold_none (links : List (Nat × Nat)) :
    ∀ (acc : List (Nat × EDist) × List Nat),
      (∀ k v, JSMap.lookup acc.1 k = some v → v = none) →
      ∀ k v,
        JSMap.lookup
          (links.foldl
            (fun (acc : List (Nat × EDist) × List Nat) lk =>
              if JSMap.hasKey acc.1 lk.1 then acc
              else (JSMap.set acc.1 lk.1 none, addSet acc.2 lk.1)) acc).1 k = some v →
        v = none := by
  induction links with
  | nil => intro acc hm; exact hm
  | cons x rest ih =>
    intro acc hm k v hv
    simp only [List.foldl_cons] at hv
    by_cases hh : JSMap.hasKey acc.1 x.1
    · rw [if_pos hh] at hv
      exact ih acc hm k v hv
    · rw [if_neg hh] at hv
      refine ih _ ?_ k v hv
      intro k2 v2 hv2
      by_cases hk : k2 = x.1
      · subst hk
        rw [JSMap.lookup_set_self] at hv2
        exact (Option.some_inj.mp hv2).symm
      · rw [JSMap.lookup_set_ne _ _ _ _ hk] at hv2
        exact hm k2 v2 hv2

theorem jsGetOrInf_of_none_or_zero (d : List (Nat × EDist))
    (hd : ∀ k v, JSMap.lookup d k = some v → v = none ∨ v = some 0) :
    ∀ k, jsGetOrInf d k = none := by
  intro k
  unfold jsGetOrInf
  cases hv : JSMap.lookup d k with
  | none => rfl
  | some v =>
    rcases hd k v hv with h0 | h0 <;> subst h0 <;> simp

theorem selectMin_of_all_inf (d : List (Nat × EDist)) (uv : List Nat)
    (hd : ∀ k, jsGetOrInf d k = none) : selectMin d uv = none := by
  unfold selectMin
  have : ∀ (l : List Nat),
      (l.foldl
        (fun acc nodeId =>
          let dd := jsGetOrInf d nodeId
          if ltE dd acc.2 then (some nodeId, dd) else acc)
        ((none : Option Nat), (none : EDist))) = (none, none) := by
    intro l
    induction l with
    | nil => rfl
    | cons x rest ih => simpa [hd x, ltE] using ih
  simp [this]

theorem buildRoutingTable_nil_previous (selfId : Nat)
    (distances : List (Nat × EDist)) :
    buildRoutingTable selfId distances [] = [] := by
  unfold buildRoutingTable
  refine foldl_fix _ ?_ distances []
  intro rt entry
  by_cases hk : entry.1 = selfId
  · simp [hk]
  · cases hd : entry.2 with
    | none => simp [hk, hd]
    | some d => simp [hk, hd, JSMap.hasKey, JSMap.lookup]

/-- The central defect: `calculateRoutingTable` always clears the routing
table and never fills it again, whatever the node's state. -/
theorem calculateRoutingTable_always_empty (n : Node) :
    (n.calculateRoutingTable).routingTable = [] := by
  unfold Node.calculateRoutingTable
  by_cases hempty : n.topologyDatabase.length = 0
  · simp [hempty]
  · simp only [hempty, if_false]
    set distances :=
      n.topologyDatabase.foldl (fun m e => JSMap.set m e.1 none) ([] : List (Nat × EDist)) with hdist
    set unvisited := n.topologyDatabase.foldl (fun u e => addSet u e.1) ([] : List Nat) with huv
    set du :=
      n.links.foldl
        (fun (acc : List (Nat × EDist) × List Nat) lk =>
          if JSMap.hasKey acc.1 lk.1 then acc
          else (JSMap.set acc.1 lk.1 none, addSet acc.2 lk.1))
        (distances, unvisited) with hdu
    have hd0 : ∀ k v, JSMap.lookup distances k = some v → v = none := by
      rw [hdist]
      exact lookup_foldl_set_none _ _ (by intro k v hv; cases hv)
    have hd1 : ∀ k v, JSMap.lookup du.1 k = some v → v = none := by
      rw [hdu]
      exact lookup_linksFold_none _ _ hd0
    have hd2 : ∀ k v, JSMap.lookup (JSMap.set du.1 n.id (some 0)) k = some v →
        v = none ∨ v = some 0 := by
      intro k v hv
      by_cases hk : k = n.id
      · subst hk
        rw [JSMap.lookup_set_self] at hv
        exact Or.inr (Option.some_inj.mp hv).symm
      · rw [JSMap.lookup_set_ne _ _ _ _ hk] at hv
        exact Or.inl (hd1 k v hv)
    have hinf : ∀ k, jsGetOrInf (JSMap.set du.1 n.id (some 0)) k = none :=
      jsGetOrInf_of_none_or_zero _ hd2
    have hloop : ∀ fuel,
        dijkstraLoop n.topologyDatabase fuel (JSMap.set du.1 n.id (some 0)) [] du.2 =
          (JSMap.set du.1 n.id (some 0), []) := by
      intro fuel
      cases fuel with
      | zero => rfl
      | succ f => simp [dijkstraLoop, selectMin_of_all_inf _ _ hinf]
    simp [hloop, buildRoutingTable_nil_previous]

/-- C1 (code bug): even for a node whose topology database has fully
converged to the true link graph (node 1 of the 5-node scenario, where
destination 2 is reachable at cost 1, 3 at cost 2, 4 at cost 1 and 5 at
cost 2), `calculateRoutingTable` produces an empty routing table — no
destination has any entry, let alone one with the shortest-path cost.
The `|| Infinity` coercion in the selection loop turns the stored
self-distance 0 into Infinity, so Dijkstra never selects a vertex. -/
theorem C1_converged_routing_table_is_empty :
    (convergedNode1.calculateRoutingTable).routingTable = [] ∧
    JSMap.lookup (convergedNode1.calculateRoutingTable).routingTable 2 = none := by
  constructor
  · decide
  · decide

/-- C2 (code bug): after `createInitialTopology`, `simulateHelloPackets`
and `simulateLSPs`, node 1's routing table is empty: it contains none of
the claimed entries (2 ↦ (2,1), 3 ↦ (2 or 4, 2), 4 ↦ (4,1), 5 ↦ (5,2)).
No routing-table recomputation happens during flooding, and the tables
computed at link-creation time are already empty because of the
`|| Infinity` defect. -/
theorem C2_node1_routing_table_empty_after_discovery_and_flooding :
    (afterFlooding.getNode 1).map Node.routingTable = some [] := by
  decide

/-- C3 (code bug): node 1 is active and already has exactly the payload's
links for originator 2 with identical costs.  `receiveLSP` indeed records
no change, but it still emits one forward per active neighbor other than
the sender (here: to nodes 4 and 5) instead of zero — the `isNewInfo`
flag is computed and then never consulted, so duplicate suppression never
happens. -/
theorem C3_duplicate_lsa_still_forwarded :
    afterFlooding.getNode 1 = some node1AfterFlooding ∧
    node1AfterFlooding.active = true ∧
    JSMap.lookup node1AfterFlooding.topologyDatabase 2 = some [(1, 1), (3, 1)] ∧
    (node1AfterFlooding.receiveLSP duplicateLSP afterFlooding).1 = node1AfterFlooding ∧
    (node1AfterFlooding.receiveLSP duplicateLSP afterFlooding).2.map Packet.pto = [4, 5] := by
  refine ⟨by decide, by decide, by decide, by decide, by decide⟩

/-- C5 (code bug): `createLink(1,1,5)` on the initial topology reports
success (`true`, the code has no `a == b` check and no way to express
`InvalidLink`) and mutates node 1's link table: the self-entry `(1, 5)`
is appended. -/
theorem C5_self_link_reported_success_and_table_mutated :
    (initialNetwork.createLink 1 1 5).2 = true ∧
    ((initialNetwork.createLink 1 1 5).1.getNode 1).map Node.links =
      some [(2, 1), (4, 1), (5, 2), (1, 5)] := by
  refine ⟨by decide, by decide⟩

/-- C8 (confirmed): `removeNode` of an id that is not in the node map
returns the not-found report `false` and the completely unchanged
network; consequently a second `removeNode` of an id that was just
successfully removed is exactly such a no-op. -/
theorem C8_removeNode_unknown_id_noop (net : Network) (nodeId : Nat) :
    (JSMap.hasKey net.nodes nodeId = false → net.removeNode nodeId = (net, false)) ∧
    (∀ net2, net.removeNode nodeId = (net2, true) →
      net2.removeNode nodeId = (net2, false)) := by
  constructor
  · intro h
    simp [Network.removeNode, h]
  · intro net2 hsucc
    by_cases hh : JSMap.hasKey net.nodes nodeId
    · unfold Network.removeNode at hsucc
      rw [if_pos hh] at hsucc
      have h2 : net2.nodes =
          JSMap.del (net.nodes.map (fun e => (e.1, removeNodeCleanup nodeId e.2))) nodeId := by
        have := congrArg Prod.fst hsucc
        simp at this
        rw [← this]
      have hnot : JSMap.hasKey net2.nodes nodeId = false := by
        rw [h2, JSMap.hasKey_false_iff_lookup, JSMap.lookup_del_self]
      simp [Network.removeNode, hnot]
    · unfold Network.removeNode at hsucc
      rw [if_neg hh] at hsucc
      cases hsucc

/-- Witness for C8 at a concrete input: id 99 is absent from the initial
topology and its removal returns the network unchanged with `false`. -/
theorem C8_removeNode_unknown_id_noop_witness :
    JSMap.hasKey initialNetwork.nodes 99 = false ∧
    initialNetwork.removeNode 99 = (initialNetwork, false) :=
  ⟨by decide, (C8_removeNode_unknown_id_noop initialNetwork 99).1 (by decide)⟩

theorem calculateRoutingTable_links (n : Node) :
    (n.calculateRoutingTable).links = n.links := by
  unfold Node.calculateRoutingTable
  by_cases h : n.topologyDatabase.length = 0 <;> simp [h]

theorem calculateRoutingTable_tdb (n : Node) :
    (n.calculateRoutingTable).topologyDatabase = n.topologyDatabase := by
  unfold Node.calculateRoutingTable
  by_cases h : n.topologyDatabase.length = 0 <;> simp [h]

theorem calculateRoutingTable_id (n : Node) :
    (n.calculateRoutingTable).id = n.id := by
  unfold Node.calculateRoutingTable
  by_cases h : n.topologyDatabase.length = 0 <;> simp [h]

theorem calculateRoutingTable_active (n : Node) :
    (n.calculateRoutingTable).active = n.active := by
  unfold Node.calculateRoutingTable
  by_cases h : n.topologyDatabase.length = 0 <;> simp [h]

theorem updateLSP_links (n : Node) : (n.updateLSP).links = n.links := rfl

theorem updateLSP_id (n : Node) : (n.updateLSP).id = n.id := rfl

theorem removeLink_links (n : Node) (targetId : Nat) :
    (n.removeLink targetId).links = JSMap.del n.links targetId := by
  unfold Node.removeLink
  by_cases h : JSMap.hasKey n.links targetId
  · by_cases h2 : JSMap.hasKey n.topologyDatabase n.id <;> simp [h, h2, updateLSP_links]
  · simp [h, JSMap.del_eq_of_not_hasKey _ _ (by simpa using h)]

theorem removeLink_id (n : Node) (targetId : Nat) :
    (n.removeLink targetId).id = n.id := by
  unfold Node.removeLink
  by_cases h : JSMap.hasKey n.links targetId
  · by_cases h2 : JSMap.hasKey n.topologyDatabase n.id <;> simp [h, h2, updateLSP_id]
  · simp [h]

theorem cleanupStep1_links (nodeId : Nat) (n : Node) :
    (cleanupStep1 nodeId n).links = JSMap.del n.links nodeId := by
  unfold cleanupStep1
  by_cases h : JSMap.hasKey n.links nodeId
  · simp [h, removeLink_links]
  · simp [h, JSMap.del_eq_of_not_hasKey _ _ (by simpa using h)]

theorem cleanupStep2_links (nodeId : Nat) (n : Node) :
    (cleanupStep2 nodeId n).links = n.links := by
  unfold cleanupStep2
  by_cases h : JSMap.hasKey n.topologyDatabase nodeId <;> simp [h]

theorem cleanupStep3_links (nodeId : Nat) (n : Node) :
    (cleanupStep3 nodeId n).links = n.links := rfl

theorem cleanupStep4_links (nodeId : Nat) (n : Node) :
    (cleanupStep4 nodeId n).links = n.links := by
  unfold cleanupStep4
  by_cases h : JSMap.hasKey n.routingTable nodeId <;> simp [h]

theorem cleanupStep2_tdb_key (nodeId : Nat) (n : Node) :
    JSMap.lookup (cleanupStep2 nodeId n).topologyDatabase nodeId = none := by
  unfold cleanupStep2
  by_cases h : JSMap.hasKey n.topologyDatabase nodeId
  · simp [h, JSMap.lookup_del_self]
  · simpa [h] using (JSMap.hasKey_false_iff_lookup _ _).mp (by simpa using h)

theorem cleanupStep3_tdb (nodeId : Nat) (n : Node) (o : Nat) :
    JSMap.lookup (cleanupStep3 nodeId n).topologyDatabase o =
      (JSMap.lookup n.topologyDatabase o).map (fun e => JSMap.del e nodeId) := by
  unfold cleanupStep3
  exact JSMap.lookup_map_value n.topologyDatabase (fun _ v => JSMap.del v nodeId) o

theorem cleanupStep4_tdb (nodeId : Nat) (n : Node) :
    (cleanupStep4 nodeId n).topologyDatabase = n.topologyDatabase := by
  unfold cleanupStep4
  by_cases h : JSMap.hasKey n.routingTable nodeId <;> simp [h]

theorem removeNodeCleanup_links (nodeId : Nat) (n : Node) :
    (removeNodeCleanup nodeId n).links = JSMap.del n.links nodeId := by
  unfold removeNodeCleanup
  rw [calculateRoutingTable_links, cleanupStep4_links, cleanupStep3_links,
    cleanupStep2_links, cleanupStep1_links]

theorem removeNodeCleanup_tdb_key (nodeId : Nat) (n : Node) :
    JSMap.lookup (removeNodeCleanup nodeId n).topologyDatabase nodeId = none := by
  unfold removeNodeCleanup
  rw [calculateRoutingTable_tdb, cleanupStep4_tdb, cleanupStep3_tdb,
    cleanupStep2_tdb_key]
  rfl

theorem removeNodeCleanup_tdb_inner (nodeId : Nat) (n : Node) :
    ∀ o e, JSMap.lookup (removeNodeCleanup nodeId n).topologyDatabase o = some e →
      JSMap.lookup e nodeId = none := by
  intro o e he
  unfold removeNodeCleanup at he
  rw [calculateRoutingTable_tdb, cleanupStep4_tdb, cleanupStep3_tdb] at he
  cases h0 : JSMap.lookup (cleanupStep2 nodeId (cleanupStep1 nodeId n)).topologyDatabase o with
  | none => rw [h0] at he; cases he
  | some e0 =>
    rw [h0] at he
    have : e = JSMap.del e0 nodeId := (Option.some_inj.mp he).symm
    rw [this]
    exact JSMap.lookup_del_self _ _

theorem removeNodeCleanup_routing (nodeId : Nat) (n : Node) :
    (removeNodeCleanup nodeId n).routingTable = [] :=
  calculateRoutingTable_always_empty _

/-- C7 (confirmed): after a successful `removeNode nodeId`, the node is
gone from the node map, and every surviving node shows zero references to
it: none in its link table, none as a topology-database key, none inside
any topology-database entry, and none in its routing table (which the
triggered recomputation leaves empty). -/
theorem C7_removeNode_purges_all_references (net : Network) (nodeId : Nat)
    (h : JSMap.hasKey net.nodes nodeId = true) :
    (net.removeNode nodeId).2 = true ∧
    JSMap.hasKey (net.removeNode nodeId).1.nodes nodeId = false ∧
    ∀ k n2, JSMap.lookup (net.removeNode nodeId).1.nodes k = some n2 →
      JSMap.lookup n2.links nodeId = none ∧
      JSMap.lookup n2.topologyDatabase nodeId = none ∧
      (∀ o e, JSMap.lookup n2.topologyDatabase o = some e →
        JSMap.lookup e nodeId = none) ∧
      JSMap.lookup n2.routingTable nodeId = none := by
  unfold Network.removeNode
  rw [if_pos h]
  refine ⟨rfl, ?_, ?_⟩
  · rw [JSMap.hasKey_false_iff_lookup]
    exact JSMap.lookup_del_self _ _
  · intro k n2 hk
    by_cases hkx : k = nodeId
    · subst hkx
      rw [JSMap.lookup_del_self] at hk
      cases hk
    · rw [JSMap.lookup_del_ne _ _ _ hkx] at hk
      have hmap :
          JSMap.lookup (net.nodes.map (fun e => (e.1, removeNodeCleanup nodeId e.2))) k =
            (JSMap.lookup net.nodes k).map (removeNodeCleanup nodeId) :=
        JSMap.lookup_map_value net.nodes (fun _ v => removeNodeCleanup nodeId v) k
      rw [hmap] at hk
      cases hn0 : JSMap.lookup net.nodes k with
      | none => rw [hn0] at hk; cases hk
      | some n0 =>
        rw [hn0] at hk
        have hn2 : n2 = removeNodeCleanup nodeId n0 := (Option.some_inj.mp hk).symm
        subst hn2
        refine ⟨?_, removeNodeCleanup_tdb_key _ _, removeNodeCleanup_tdb_inner _ _, ?_⟩
        · rw [removeNodeCleanup_links]
          exact JSMap.lookup_del_self _ _
        · rw [removeNodeCleanup_routing]
          rfl

/-- C9 counterexample: node 1's sequence number is 3, yet every packet
its `sendLSPs` emits carries no sequence number at all in its payload
(`sequenceNumber` is absent from the freshly built `lspData`), so the
emitted LSAs do not carry the node's current sequence number. -/
theorem C9_counterexample_emitted_lsa_lacks_sequence_number :
    node1Initial.lspSequenceNumber = 3 ∧
    (node1Initial.sendLSPs initialNetwork).map Packet.lspSeq = [none, none, none] := by
  refine ⟨by decide, by decide⟩

/-- Any element of the folds used by the packet-emitting methods
satisfies a predicate as soon as each step preserves it. -/
theorem foldl_append_pred {α β : Type} (P : α → Prop) (step : List α → β → List α)
    (hstep : ∀ acc b, (∀ p ∈ acc, P p) → ∀ p ∈ step acc b, P p) :
    ∀ (l : List β) (acc : List α), (∀ p ∈ acc, P p) → ∀ p ∈ l.foldl step acc, P p := by
  intro l
  induction l with
  | nil => intro acc h; exact h
  | cons x rest ih => intro acc h; exact ih _ (hstep acc x h)

/-- C9 (amended): adding a new direct link or removing an existing one
does increment the node's LSA sequence number and stores it in the
node's own `lsp` snapshot — but the packets emitted by `sendLSPs` build
a fresh payload that omits the sequence number entirely. -/
theorem C9_sequence_incremented_but_not_emitted
    (n : Node) (targetId cost : Nat) (net : Network) :
    (JSMap.hasKey n.links targetId = false →
      (n.addLink targetId cost).lspSequenceNumber = n.lspSequenceNumber + 1 ∧
      (n.addLink targetId cost).lsp.sequenceNumber =
        some ((n.addLink targetId cost).lspSequenceNumber)) ∧
    (JSMap.hasKey n.links targetId = true →
      (n.removeLink targetId).lspSequenceNumber = n.lspSequenceNumber + 1 ∧
      (n.removeLink targetId).lsp.sequenceNumber =
        some ((n.removeLink targetId).lspSequenceNumber)) ∧
    (∀ p ∈ n.sendLSPs net, Packet.lspSeq p = none) := by
  refine ⟨?_, ?_, ?_⟩
  · intro h
    unfold Node.addLink
    rw [if_neg (by simp [h])]
    by_cases h2 : JSMap.hasKey n.topologyDatabase n.id <;>
      simp [h2, Node.updateLSP]
  · intro h
    unfold Node.removeLink
    rw [if_pos h]
    by_cases h2 : JSMap.hasKey
        ({ n with links := JSMap.del n.links targetId } : Node).topologyDatabase
        ({ n with links := JSMap.del n.links targetId } : Node).id <;>
      simp [h2, Node.updateLSP]
  · unfold Node.sendLSPs
    by_cases ha : n.active
    · simp only [ha, if_true]
      refine foldl_append_pred _ _ ?_ n.links [] (by intro p hp; cases hp)
      intro acc lk hacc p hp
      cases hnb : net.getNode lk.1 with
      | none => simp only [hnb] at hp; exact hacc p hp
      | some nb =>
        simp only [hnb] at hp
        cases hact : nb.active with
        | false => simp [hact] at hp; exact hacc p hp
        | true =>
          simp [hact] at hp
          rcases hp with h1 | h1
          · exact hacc p h1
          · rw [h1]; rfl
    · intro p hp
      simp [ha] at hp

/-- Witness for C9 at a concrete input: a link addition on a fresh node. -/
theorem C9_sequence_incremented_but_not_emitted_witness :
    JSMap.hasKey (Node.new 7).links 2 = false ∧
    (((Node.new 7).addLink 2 3).lspSequenceNumber = (Node.new 7).lspSequenceNumber + 1 ∧
     ((Node.new 7).addLink 2 3).lsp.sequenceNumber =
       some (((Node.new 7).addLink 2 3).lspSequenceNumber)) :=
  ⟨by decide, (C9_sequence_incremented_but_not_emitted (Node.new 7) 2 3 Network.new).1 (by decide)⟩

theorem lookup2_setInner_ne (m : List (Nat × List (Nat × Nat))) (K k2 v o k : Nat)
    (ho : o ≠ K) : JSMap.lookup2 (setInner m K k2 v) o k = JSMap.lookup2 m o k := by
  unfold setInner
  cases h : JSMap.lookup m K with
  | none => rfl
  | some inner => simp [JSMap.lookup2, JSMap.lookup_set_ne _ _ _ _ ho]

theorem lookup2_setInner_self_ne (m : List (Nat × List (Nat × Nat))) (K k2 v k : Nat)
    (hk : k ≠ k2) : JSMap.lookup2 (setInner m K k2 v) K k = JSMap.lookup2 m K k := by
  unfold setInner
  cases h : JSMap.lookup m K with
  | none => rfl
  | some inner =>
    simp [JSMap.lookup2, JSMap.lookup_set_self, h, JSMap.lookup_set_ne _ _ _ _ hk]

theorem lookup2_setInner_self_self (m : List (Nat × List (Nat × Nat))) (K k2 v : Nat)
    (inner : List (Nat × Nat)) (h : JSMap.lookup m K = some inner) :
    JSMap.lookup2 (setInner m K k2 v) K k2 = some v := by
  unfold setInner
  simp [h, JSMap.lookup2, JSMap.lookup_set_self]

/-- C10 (confirmed): `receiveLSP` is merge-only.  Every (neighbor, cost)
pair of every topology-database entry survives the call; the cost can
change only for the packet originator's entry, and only to a cost the
incoming payload lists for that neighbor.  In particular a link absent
from the payload is never deleted. -/
theorem C10_receiveLSP_merge_only (n : Node) (p : Packet) (net : Network)
    (o k c : Nat)
    (h : JSMap.lookup2 n.topologyDatabase o k = some c) :
    ∃ c2, JSMap.lookup2 ((n.receiveLSP p net).1).topologyDatabase o k = some c2 ∧
      (c2 = c ∨ ∃ d, p.data = PacketData.lspD d ∧ o = d.nodeId ∧ (k, c2) ∈ d.links) := by
  unfold Node.receiveLSP
  by_cases ha : n.active
  · simp only [ha, if_true]
    cases hdata : p.data with
    | hello s cst l => exact ⟨c, h, Or.inl rfl⟩
    | lspD d =>
      by_cases httl : ttlExpired d.ttl
      · simp only [httl, if_true]
        exact ⟨c, h, Or.inl rfl⟩
      · simp only [httl, if_false]
        have hbase : JSMap.lookup2
            (if JSMap.hasKey n.topologyDatabase d.nodeId then n.topologyDatabase
             else JSMap.set n.topologyDatabase d.nodeId []) o k = some c := by
          by_cases hk0 : JSMap.hasKey n.topologyDatabase d.nodeId
          · simpa [hk0] using h
          · rw [if_neg hk0]
            by_cases ho : o = d.nodeId
            · subst ho
              have hnone : JSMap.lookup n.topologyDatabase d.nodeId = none :=
                (JSMap.hasKey_false_iff_lookup _ _).mp (by simpa using hk0)
              simp [JSMap.lookup2, hnone] at h
            · unfold JSMap.lookup2 at h ⊢
              rw [JSMap.lookup_set_ne _ _ _ _ ho]
              exact h
        have key : ∀ (l : List (Nat × Nat))
            (tdb : List (Nat × List (Nat × Nat))),
            (∀ x ∈ l, x ∈ d.links) →
            (∃ c2, JSMap.lookup2 tdb o k = some c2 ∧
              (c2 = c ∨ (o = d.nodeId ∧ (k, c2) ∈ d.links))) →
            ∃ c2, JSMap.lookup2
                (l.foldl
                  (fun tdb lk =>
                    if JSMap.lookup2 tdb d.nodeId lk.1 ≠ some lk.2
                    then setInner tdb d.nodeId lk.1 lk.2
                    else tdb) tdb) o k = some c2 ∧
              (c2 = c ∨ (o = d.nodeId ∧ (k, c2) ∈ d.links)) := by
          intro l
          induction l with
          | nil => intro tdb _ hinv; exact hinv
          | cons lk rest ih =>
            intro tdb hsub hinv
            rw [List.foldl_cons]
            refine ih _ (fun x hx => hsub x (List.mem_cons_of_mem _ hx)) ?_
            by_cases hcond : JSMap.lookup2 tdb d.nodeId lk.1 ≠ some lk.2
            · rw [if_pos hcond]
              by_cases ho : o = d.nodeId
              · subst ho
                by_cases hkk : k = lk.1
                · subst hkk
                  rcases hinv with ⟨c2, hc2, _⟩
                  have hksome : ∃ inner, JSMap.lookup tdb d.nodeId = some inner := by
                    unfold JSMap.lookup2 at hc2
                    cases hl : JSMap.lookup tdb d.nodeId with
                    | none => rw [hl] at hc2; cases hc2
                    | some inner => exact ⟨inner, rfl⟩
                  rcases hksome with ⟨inner, hinner⟩
                  refine ⟨lk.2, lookup2_setInner_self_self _ _ _ _ _ hinner, ?_⟩
                  exact Or.inr ⟨rfl, by simpa using hsub lk (List.mem_cons_self _ _)⟩
                · rw [lookup2_setInner_self_ne _ _ _ _ _ hkk]
                  exact hinv
              · rw [lookup2_setInner_ne _ _ _ _ _ _ ho]
                exact hinv
            · rw [if_neg hcond]
              exact hinv
        rcases key d.links _ (fun x hx => hx) ⟨c, hbase, Or.inl rfl⟩ with ⟨c2, hc2, hor⟩
        refine ⟨c2, by simpa using hc2, ?_⟩
        rcases hor with h1 | h1
        · exact Or.inl h1
        · exact Or.inr ⟨d, rfl, h1.1, h1.2⟩
  · simp only [ha, if_false]
    exact ⟨c, h, Or.inl rfl⟩

/-- Witness for C10 at a concrete input: node 1's recorded pair (1,1)
inside originator 2's entry survives a further delivery of node 2's
LSA. -/
theorem C10_receiveLSP_merge_only_witness :
    JSMap.lookup2 node1AfterFlooding.topologyDatabase 2 1 = some 1 ∧
    ∃ c2,
      JSMap.lookup2
        ((node1AfterFlooding.receiveLSP duplicateLSP afterFlooding).1).topologyDatabase 2 1 =
          some c2 ∧
      (c2 = 1 ∨ ∃ d, duplicateLSP.data = PacketData.lspD d ∧ 2 = d.nodeId ∧
        (1, c2) ∈ d.links) :=
  ⟨by decide,
    C10_receiveLSP_merge_only node1AfterFlooding duplicateLSP afterFlooding 2 1 1 (by decide)⟩

theorem hasKey_of_mem {α : Type} (m : List (Nat × α)) (a : Nat) (b : α)
    (h : (a, b) ∈ m) : JSMap.hasKey m a = true := by
  induction m with
  | nil => cases h
  | cons e rest ih =>
    rcases List.mem_cons.mp h with h1 | h1
    · rw [← h1]
      simp [JSMap.hasKey, JSMap.lookup]
    · by_cases he : e.1 = a
      · simp [JSMap.hasKey, JSMap.lookup, he]
      · simpa [JSMap.hasKey, JSMap.lookup, he] using ih h1

theorem hasKey_set {α : Type} (m : List (Nat × α)) (k j : Nat) (v : α) :
    JSMap.hasKey (JSMap.set m k v) j = true ↔ j = k ∨ JSMap.hasKey m j = true := by
  by_cases hj : j = k
  · subst hj
    simp [JSMap.hasKey, JSMap.lookup_set_self]
  · simp [JSMap.hasKey, JSMap.lookup_set_ne _ _ _ _ hj, hj]

theorem hasKey_setInner (m : List (Nat × List (Nat × Nat))) (K k2 v o : Nat) :
    JSMap.hasKey (setInner m K k2 v) o = JSMap.hasKey m o := by
  unfold setInner
  cases hK : JSMap.lookup m K with
  | none => rfl
  | some inner =>
    by_cases ho : o = K
    · subst ho
      simp [JSMap.hasKey, JSMap.lookup_set_self, hK]
    · simp [JSMap.hasKey, JSMap.lookup_set_ne _ _ _ _ ho]

theorem receiveLSP_links (n : Node) (p : Packet) (net : Network) :
    ((n.receiveLSP p net).1).links = n.links := by
  unfold Node.receiveLSP
  by_cases ha : n.active
  · cases hdata : p.data with
    | hello s cst l => simp [ha]
    | lspD d =>
      by_cases httl : ttlExpired d.ttl <;> simp [ha, httl]
  · simp [ha]

theorem receiveLSP_id (n : Node) (p : Packet) (net : Network) :
    ((n.receiveLSP p net).1).id = n.id := by
  unfold Node.receiveLSP
  by_cases ha : n.active
  · cases hdata : p.data with
    | hello s cst l => simp [ha]
    | lspD d =>
      by_cases httl : ttlExpired d.ttl <;> simp [ha, httl]
  · simp [ha]

theorem receiveLSP_active (n : Node) (p : Packet) (net : Network) :
    ((n.receiveLSP p net).1).active = n.active := by
  unfold Node.receiveLSP
  by_cases ha : n.active
  · cases hdata : p.data with
    | hello s cst l => simp [ha]
    | lspD d =>
      by_cases httl : ttlExpired d.ttl <;> simp [ha, httl]
  · simp [ha]

/-- The merge loop of `receiveLSP` creates no topology-database key. -/
theorem mergeFold_hasKey (dn : Nat) (l : List (Nat × Nat)) :
    ∀ (tdb : List (Nat × List (Nat × Nat))) (o : Nat),
      JSMap.hasKey
        (l.foldl
          (fun tdb lk =>
            if JSMap.lookup2 tdb dn lk.1 ≠ some lk.2
            then setInner tdb dn lk.1 lk.2
            else tdb) tdb) o = JSMap.hasKey tdb o := by
  induction l with
  | nil => intro tdb o; rfl
  | cons lk rest ih =>
    intro tdb o
    rw [List.foldl_cons]
    by_cases hcond : JSMap.lookup2 tdb dn lk.1 ≠ some lk.2
    · rw [if_pos hcond, ih, hasKey_setInner]
    · rw [if_neg hcond, ih]

/-- A topology-database key present after `receiveLSP` was present before
or is the packet payload's originator. -/
theorem receiveLSP_tdb_hasKey (n : Node) (p : Packet) (net : Network) (o : Nat)
    (h : JSMap.hasKey ((n.receiveLSP p net).1).topologyDatabase o = true) :
    JSMap.hasKey n.topologyDatabase o = true ∨
      (∃ d, p.data = PacketData.lspD d ∧ o = d.nodeId) := by
  by_cases ha : n.active
  · cases hdata : p.data with
    | hello s cst l =>
      have hsame : (n.receiveLSP p net).1 = n := by
        unfold Node.receiveLSP
        rw [hdata]
        simp [ha]
      rw [hsame] at h
      exact Or.inl h
    | lspD d =>
      by_cases httl : ttlExpired d.ttl
      · have hsame : (n.receiveLSP p net).1 = n := by
          unfold Node.receiveLSP
          rw [hdata]
          simp [ha, httl]
        rw [hsame] at h
        exact Or.inl h
      · have hrw : ((n.receiveLSP p net).1).topologyDatabase =
            d.links.foldl
              (fun tdb lk =>
                if JSMap.lookup2 tdb d.nodeId lk.1 ≠ some lk.2
                then setInner tdb d.nodeId lk.1 lk.2
                else tdb)
              (if JSMap.hasKey n.topologyDatabase d.nodeId then n.topologyDatabase
               else JSMap.set n.topologyDatabase d.nodeId []) := by
          unfold Node.receiveLSP
          rw [hdata]
          simp [ha, httl]
        rw [hrw, mergeFold_hasKey] at h
        by_cases hk0 : JSMap.hasKey n.topologyDatabase d.nodeId
        · rw [if_pos hk0] at h
          exact Or.inl h
        · rw [if_neg hk0] at h
          rcases (hasKey_set _ _ _ _).mp h with h1 | h1
          · exact Or.inr ⟨d, rfl, h1⟩
          · exact Or.inl h1
  · have hsame : (n.receiveLSP p net).1 = n := by
      unfold Node.receiveLSP
      simp [ha]
    rw [hsame] at h
    exact Or.inl h

/-- Membership-aware variant of `foldl_append_pred`. -/
theorem foldl_append_pred_mem {α β : Type} (P : α → Prop) :
    ∀ (l : List β) (step : List α → β → List α),
      (∀ acc b, b ∈ l → (∀ p ∈ acc, P p) → ∀ p ∈ step acc b, P p) →
      ∀ acc, (∀ p ∈ acc, P p) → ∀ p ∈ l.foldl step acc, P p := by
  intro l
  induction l with
  | nil => intro step _ acc h; exact h
  | cons x rest ih =>
    intro step hstep acc h
    exact ih step (fun acc b hb => hstep acc b (List.mem_cons_of_mem _ hb)) _
      (hstep acc x (List.mem_cons_self _ _) h)

/-- Every packet `sendLSPs` emits carries the sender's id as payload
originator and is addressed to one of the sender's link neighbors. -/
theorem sendLSPs_packets (n : Node) (net : Network) :
    ∀ p ∈ n.sendLSPs net,
      p.lspOrig = some n.id ∧ JSMap.hasKey n.links p.pto = true := by
  unfold Node.sendLSPs
  by_cases ha : n.active
  · simp only [ha, if_true]
    refine foldl_append_pred_mem _ n.links _ ?_ [] (by intro p hp; cases hp)
    intro acc lk hlk hacc p hp
    cases hnb : net.getNode lk.1 with
    | none => simp only [hnb] at hp; exact hacc p hp
    | some nb =>
      simp only [hnb] at hp
      cases hact : nb.active with
      | false => simp [hact] at hp; exact hacc p hp
      | true =>
        simp [hact] at hp
        rcases hp with h1 | h1
        · exact hacc p h1
        · rw [h1]
          exact ⟨rfl, hasKey_of_mem _ _ _ (by simpa using hlk)⟩
  · intro p hp
    simp [ha] at hp

/-- Every packet of the generation loop originates from an active node
object of the map and is addressed to one of that node's neighbors. -/
theorem generateLSPs_origin (net : Network) :
    ∀ p ∈ net.generateLSPs,
      ∃ e ∈ net.nodes, (e : Nat × Node).2.active = true ∧
        p.lspOrig = some e.2.id ∧ JSMap.hasKey e.2.links p.pto = true := by
  unfold Network.generateLSPs
  refine foldl_append_pred_mem _ net.nodes _ ?_ [] (by intro p hp; cases hp)
  intro acc e he hacc p hp
  cases hact : e.2.active with
  | false => simp [hact] at hp; exact hacc p hp
  | true =>
    simp only [hact, if_true] at hp
    rcases List.mem_append.mp hp with h1 | h1
    · exact hacc p h1
    · rcases sendLSPs_packets e.2 net p h1 with ⟨horig, hto⟩
      exact ⟨e, he, hact, horig, hto⟩

/-- Delivery-loop invariant: a topology-database key present after the
loop was covered by the starting predicate or stems from a delivered
packet's payload originator. -/
theorem deliverFold_tdb_keys :
    ∀ (ps : List Packet) (B : Nat → Nat → Prop) (acc : Network × List Packet),
      (∀ v nv o, acc.1.getNode v = some nv →
        JSMap.hasKey nv.topologyDatabase o = true → B v o) →
      ∀ v nv o,
        (ps.foldl deliverStep acc).1.getNode v = some nv →
        JSMap.hasKey nv.topologyDatabase o = true →
        B v o ∨ ∃ p ∈ ps, p.pto = v ∧ p.lspOrig = some o := by
  intro ps
  induction ps with
  | nil =>
    intro B acc hbase v nv o hv hk
    exact Or.inl (hbase v nv o hv hk)
  | cons p rest ih =>
    intro B acc hbase v nv o hv hk
    have hstep : ∀ v2 nv2 o2, (deliverStep acc p).1.getNode v2 = some nv2 →
        JSMap.hasKey nv2.topologyDatabase o2 = true →
        B v2 o2 ∨ (p.pto = v2 ∧ p.lspOrig = some o2) := by
      intro v2 nv2 o2 hv hk
      cases htn : acc.1.getNode p.pto with
      | none =>
        have hds : deliverStep acc p = acc := by
          unfold deliverStep
          rw [htn]
        rw [hds] at hv
        exact Or.inl (hbase v2 nv2 o2 hv hk)
      | some tn =>
        cases hact : tn.active with
        | false =>
          have hds : deliverStep acc p = acc := by
            unfold deliverStep
            rw [htn]
            simp [hact]
          rw [hds] at hv
          exact Or.inl (hbase v2 nv2 o2 hv hk)
        | true =>
          have hds : (deliverStep acc p).1 =
              acc.1.setNode p.pto (tn.receiveLSP p acc.1).1 := by
            unfold deliverStep
            rw [htn]
            simp [hact]
          rw [hds] at hv
          by_cases hvp : v2 = p.pto
          · subst hvp
            have hget : (acc.1.setNode p.pto (tn.receiveLSP p acc.1).1).getNode p.pto =
                some (tn.receiveLSP p acc.1).1 := JSMap.lookup_set_self _ _ _
            rw [hget] at hv
            have hnv : (tn.receiveLSP p acc.1).1 = nv2 := Option.some_inj.mp hv
            rw [← hnv] at hk
            rcases receiveLSP_tdb_hasKey tn p acc.1 o2 hk with h1 | ⟨d, hd, ho⟩
            · exact Or.inl (hbase p.pto tn o2 htn h1)
            · exact Or.inr ⟨rfl, by simp [Packet.lspOrig, hd, ho]⟩
          · have hget : (acc.1.setNode p.pto (tn.receiveLSP p acc.1).1).getNode v2 =
                acc.1.getNode v2 := JSMap.lookup_set_ne _ _ _ _ hvp
            rw [hget] at hv
            exact Or.inl (hbase v2 nv2 o2 hv hk)
    rw [List.foldl_cons] at hv
    rcases ih (fun v o => B v o ∨ (p.pto = v ∧ p.lspOrig = some o))
        (deliverStep acc p) hstep v nv o hv hk with h1 | ⟨q, hq, hq2⟩
    · rcases h1 with h1 | h1
      · exact Or.inl h1
      · exact Or.inr ⟨p, List.mem_cons_self _ _, h1⟩
    · exact Or.inr ⟨q, List.mem_cons_of_mem _ hq, hq2⟩

/-- C4 (amended): the flooding phase is single-pass.  Any originator key
present in a node's topology database after `simulateLSPs` was either
already there or belongs to a direct, active neighbor that advertised
itself in this very pass — multi-hop information never arrives, because
the forward packets are returned but never delivered and no further round
runs. -/
theorem C4_flooding_single_pass_one_hop (net : Network) (v o : Nat) (nv : Node)
    (hv : (net.simulateLSPs).1.getNode v = some nv)
    (hk : JSMap.hasKey nv.topologyDatabase o = true) :
    (∃ nv0, net.getNode v = some nv0 ∧
      JSMap.hasKey nv0.topologyDatabase o = true) ∨
    (∃ e ∈ net.nodes, (e : Nat × Node).2.active = true ∧ e.2.id = o ∧
      JSMap.hasKey e.2.links v = true) := by
  have hv2 : (net.deliverLSPs net.generateLSPs).1.getNode v = some nv := hv
  unfold Network.deliverLSPs at hv2
  rcases deliverFold_tdb_keys net.generateLSPs
      (fun v o => ∃ nv0, net.getNode v = some nv0 ∧
        JSMap.hasKey nv0.topologyDatabase o = true)
      (net, []) (fun v nv o hvv hkk => ⟨nv, hvv, hkk⟩) v nv o hv2 hk with h1 | ⟨p, hp, hpto, horig⟩
  · exact Or.inl h1
  · rcases generateLSPs_origin net p hp with ⟨e, he, hact, horig2, hto⟩
    refine Or.inr ⟨e, he, hact, ?_, ?_⟩
    · have := horig2.symm.trans horig
      simpa using this
    · rw [hpto] at hto
      exact hto

/-- C4 counterexample: on the initial topology the flooding phase
terminates after its single delivery pass even though that pass produced
forward packets (three of them carry originator 3 and are addressed to
node 1); they are never delivered: node 1's topology database has no
entry for node 3 after the phase, and still none after running the phase
again — so forwards collected in one round are not delivered in a next
round, and the phase does not run until a round produces zero forwards
(the 5-node ceiling was never reached: only one pass ran). -/
theorem C4_counterexample_forwards_never_delivered :
    (floodingPackets.filter
      (fun p => p.pto == 1 && p.lspOrig == some 3)).length = 3 ∧
    (afterFlooding.getNode 1).map
      (fun n => JSMap.hasKey n.topologyDatabase 3) = some false ∧
    ((afterFlooding.simulateLSPs).1.getNode 1).map
      (fun n => JSMap.hasKey n.topologyDatabase 3) = some false := by
  refine ⟨by decide, by decide, by decide⟩

/-- Witness for C4's amended theorem at a concrete input: after the
flooding pass on the initial topology, node 1 has a topology-database
entry for originator 2, and indeed node 2 is an active direct neighbor
that advertised itself. -/
theorem C4_flooding_single_pass_one_hop_witness :
    (afterDiscovery.simulateLSPs).1.getNode 1 = some node1AfterFlooding ∧
    JSMap.hasKey node1AfterFlooding.topologyDatabase 2 = true ∧
    ((∃ nv0, afterDiscovery.getNode 1 = some nv0 ∧
       JSMap.hasKey nv0.topologyDatabase 2 = true) ∨
     (∃ e ∈ afterDiscovery.nodes, (e : Nat × Node).2.active = true ∧ e.2.id = 2 ∧
       JSMap.hasKey e.2.links 1 = true)) :=
  ⟨by decide, by decide,
    C4_flooding_single_pass_one_hop afterDiscovery 1 2 node1AfterFlooding
      (by decide) (by decide)⟩

theorem addLink_links (n : Node) (t c : Nat) :
    (n.addLink t c).links =
      if JSMap.hasKey n.links t then n.links else JSMap.set n.links t c := by
  unfold Node.addLink
  by_cases h : JSMap.hasKey n.links t
  · simp [h]
  · by_cases h2 : JSMap.hasKey n.topologyDatabase n.id <;>
      simp [h, h2, Node.updateLSP]

theorem lookup_addLink_ne (n : Node) (t c j : Nat) (hj : j ≠ t) :
    JSMap.lookup (n.addLink t c).links j = JSMap.lookup n.links j := by
  rw [addLink_links]
  by_cases h : JSMap.hasKey n.links t
  · rw [if_pos h]
  · rw [if_neg h, JSMap.lookup_set_ne _ _ _ _ hj]

theorem hasKey_addLink (n : Node) (t c j : Nat) :
    JSMap.hasKey (n.addLink t c).links j = true ↔
      j = t ∨ JSMap.hasKey n.links j = true := by
  rw [addLink_links]
  by_cases h : JSMap.hasKey n.links t
  · rw [if_pos h]
    constructor
    · exact Or.inr
    · rintro (rfl | hh)
      · exact h
      · exact hh
  · rw [if_neg h]
    exact hasKey_set _ _ _ _

theorem getNode_modifyNode (net : Network) (k : Nat) (f : Node → Node) (j : Nat) :
    (net.modifyNode k f).getNode j =
      if j = k then (net.getNode k).map f else net.getNode j := by
  unfold Network.modifyNode
  cases hk : net.getNode k with
  | none =>
    by_cases hj : j = k
    · subst hj
      rw [if_pos rfl]
      exact hk
    · rw [if_neg hj]
  | some n =>
    by_cases hj : j = k
    · subst hj
      rw [if_pos rfl]
      exact JSMap.lookup_set_self _ _ _
    · rw [if_neg hj]
      exact JSMap.lookup_set_ne _ _ _ _ hj

theorem nextNodeId_modifyNode (net : Network) (k : Nat) (f : Node → Node) :
    (net.modifyNode k f).nextNodeId = net.nextNodeId := by
  unfold Network.modifyNode
  cases hk : net.getNode k with
  | none => rfl
  | some n => rfl

/-- Invariance transfers between networks with the same nodes view. -/
theorem netInv_of_same_views (net net2 : Network)
    (hn : ∀ j, net2.getNode j = net.getNode j)
    (hid : net2.nextNodeId = net.nextNodeId)
    (h : NetInv net) : NetInv net2 := by
  obtain ⟨hsym, hcl, hfr⟩ := h
  refine ⟨?_, ?_, ?_⟩
  · intro a na b nb ha hb hab
    exact hsym a na b nb ((hn a).symm.trans ha :) ((hn b).symm.trans hb :) hab
  · intro a na j ha hj
    have := hcl a na j ((hn a).symm.trans ha :) hj
    unfold JSMap.hasKey at this ⊢
    rw [show JSMap.lookup net2.nodes j = JSMap.lookup net.nodes j from hn j]
    exact this
  · intro a ha
    rw [hid]
    refine hfr a ?_
    unfold JSMap.hasKey at ha ⊢
    rw [← show JSMap.lookup net2.nodes a = JSMap.lookup net.nodes a from hn a]
    exact ha

/-- Modifying one node with a links-preserving function keeps the
invariant. -/
theorem netInv_modifyNode_linksEq (net : Network) (k : Nat) (f : Node → Node)
    (hf : ∀ n, (f n).links = n.links) (h : NetInv net) :
    NetInv (net.modifyNode k f) := by
  obtain ⟨hsym, hcl, hfr⟩ := h
  have hkeys : ∀ j, JSMap.hasKey (net.modifyNode k f).nodes j =
      JSMap.hasKey net.nodes j := by
    intro j
    unfold JSMap.hasKey
    have := getNode_modifyNode net k f j
    unfold Network.getNode at this
    rw [this]
    by_cases hj : j = k
    · subst hj
      rw [if_pos rfl]
      cases JSMap.lookup net.nodes j <;> rfl
    · rw [if_neg hj]
  have hlinks : ∀ j nj, JSMap.lookup (net.modifyNode k f).nodes j = some nj →
      ∃ n0, JSMap.lookup net.nodes j = some n0 ∧ nj.links = n0.links := by
    intro j nj hj
    have := getNode_modifyNode net k f j
    unfold Network.getNode at this
    rw [this] at hj
    by_cases hjk : j = k
    · subst hjk
      rw [if_pos rfl] at hj
      cases h0 : JSMap.lookup net.nodes j with
      | none => rw [h0] at hj; cases hj
      | some n0 =>
        rw [h0] at hj
        refine ⟨n0, rfl, ?_⟩
        have : f n0 = nj := Option.some_inj.mp hj
        rw [← this, hf]
    · rw [if_neg hjk] at hj
      exact ⟨nj, hj, rfl⟩
  refine ⟨?_, ?_, ?_⟩
  · intro a na b nb ha hb hab
    rcases hlinks a na ha with ⟨na0, ha0, hla⟩
    rcases hlinks b nb hb with ⟨nb0, hb0, hlb⟩
    rw [hla, hlb]
    exact hsym a na0 b nb0 ha0 hb0 hab
  · intro a na j ha hj
    rcases hlinks a na ha with ⟨na0, ha0, hla⟩
    rw [hkeys]
    exact hcl a na0 j ha0 (by rw [hla] at hj; exact hj)
  · intro a ha
    rw [nextNodeId_modifyNode]
    exact hfr a (by rw [hkeys] at ha; exact ha)

theorem netInv_new : NetInv Network.new := by
  refine ⟨?_, ?_, ?_⟩
  · intro a na b nb ha
    cases ha
  · intro a na j ha
    cases ha
  · intro a ha
    simp [Network.new, JSMap.hasKey, JSMap.lookup] at ha

theorem netInv_createNode (net : Network) (h : NetInv net) :
    NetInv (net.createNode).1 := by
  obtain ⟨hsym, hcl, hfr⟩ := h
  have hfresh : JSMap.hasKey net.nodes net.nextNodeId = false := by
    cases hh : JSMap.hasKey net.nodes net.nextNodeId
    · rfl
    · exact absurd (hfr _ hh) (by omega)
  have hfreshL : JSMap.lookup net.nodes net.nextNodeId = none :=
    (JSMap.hasKey_false_iff_lookup _ _).mp hfresh
  unfold Network.createNode
  refine ⟨?_, ?_, ?_⟩
  · intro a na b nb ha hb hab
    simp only at ha hb
    by_cases haN : a = net.nextNodeId
    · rw [haN, JSMap.lookup_set_self] at ha
      have hna : na = Node.new net.nextNodeId := (Option.some_inj.mp ha).symm
      have hbN : b ≠ net.nextNodeId := fun hh => hab (haN.trans hh.symm)
      rw [JSMap.lookup_set_ne _ _ _ _ hbN] at hb
      have h1 : JSMap.lookup na.links b = none := by
        rw [hna]
        rfl
      have h2 : JSMap.lookup nb.links a = none := by
        cases h2 : JSMap.lookup nb.links a with
        | none => rfl
        | some cc =>
          have hkey : JSMap.hasKey nb.links a = true := by
            unfold JSMap.hasKey
            rw [h2]
            rfl
          have := hcl b nb a hb hkey
          rw [haN, show JSMap.hasKey net.nodes net.nextNodeId = false from hfresh] at this
          cases this
      rw [h1, h2]
    · rw [JSMap.lookup_set_ne _ _ _ _ haN] at ha
      by_cases hbN : b = net.nextNodeId
      · rw [hbN, JSMap.lookup_set_self] at hb
        have hnb : nb = Node.new net.nextNodeId := (Option.some_inj.mp hb).symm
        have h2 : JSMap.lookup nb.links a = none := by
          rw [hnb]
          rfl
        have h1 : JSMap.lookup na.links b = none := by
          cases h1 : JSMap.lookup na.links b with
          | none => rfl
          | some cc =>
            have hkey : JSMap.hasKey na.links b = true := by
              unfold JSMap.hasKey
              rw [h1]
              rfl
            have := hcl a na b ha hkey
            rw [hbN, show JSMap.hasKey net.nodes net.nextNodeId = false from hfresh] at this
            cases this
        rw [h1, h2]
      · rw [JSMap.lookup_set_ne _ _ _ _ hbN] at hb
        exact hsym a na b nb ha hb hab
  · intro a na j ha hj
    simp only at ha ⊢
    by_cases haN : a = net.nextNodeId
    · subst haN
      rw [JSMap.lookup_set_self] at ha
      have hna : na = Node.new net.nextNodeId := (Option.some_inj.mp ha).symm
      rw [hna] at hj
      cases hj
    · rw [JSMap.lookup_set_ne _ _ _ _ haN] at ha
      exact (hasKey_set _ _ _ _).mpr (Or.inr (hcl a na j ha hj))
  · intro a ha
    simp only at ha ⊢
    rcases (hasKey_set _ _ _ _).mp ha with h1 | h1
    · omega
    · have := hfr a h1
      omega

theorem netInv_removeNode (net : Network) (x : Nat) (h : NetInv net) :
    NetInv (net.removeNode x).1 := by
  obtain ⟨hsym, hcl, hfr⟩ := h
  unfold Network.removeNode
  by_cases hx : JSMap.hasKey net.nodes x
  · rw [if_pos hx]
    have hchar : ∀ j nj,
        JSMap.lookup
          (JSMap.del (net.nodes.map (fun e => (e.1, removeNodeCleanup x e.2))) x) j =
          some nj →
        j ≠ x ∧ ∃ n0, JSMap.lookup net.nodes j = some n0 ∧
          nj.links = JSMap.del n0.links x := by
      intro j nj hj
      by_cases hjx : j = x
      · subst hjx
        rw [JSMap.lookup_del_self] at hj
        cases hj
      · rw [JSMap.lookup_del_ne _ _ _ hjx,
          JSMap.lookup_map_value net.nodes (fun _ v => removeNodeCleanup x v)] at hj
        cases h0 : JSMap.lookup net.nodes j with
        | none => rw [h0] at hj; cases hj
        | some n0 =>
          rw [h0] at hj
          refine ⟨hjx, n0, rfl, ?_⟩
          have : removeNodeCleanup x n0 = nj := Option.some_inj.mp hj
          rw [← this, removeNodeCleanup_links]
    have hkeys : ∀ j,
        JSMap.hasKey
          (JSMap.del (net.nodes.map (fun e => (e.1, removeNodeCleanup x e.2))) x) j = true →
        j ≠ x ∧ JSMap.hasKey net.nodes j = true := by
      intro j hj
      rcases (JSMap.hasKey_iff_lookup _ _).mp hj with ⟨nj, hnj⟩
      rcases hchar j nj hnj with ⟨hjx, n0, h0, _⟩
      exact ⟨hjx, (JSMap.hasKey_iff_lookup _ _).mpr ⟨n0, h0⟩⟩
    refine ⟨?_, ?_, ?_⟩
    · intro a na b nb ha hb hab
      rcases hchar a na ha with ⟨hax, na0, ha0, hla⟩
      rcases hchar b nb hb with ⟨hbx, nb0, hb0, hlb⟩
      rw [hla, hlb, JSMap.lookup_del_ne _ _ _ hbx,
        JSMap.lookup_del_ne _ _ _ hax]
      exact hsym a na0 b nb0 ha0 hb0 hab
    · intro a na j ha hj
      rcases hchar a na ha with ⟨hax, na0, ha0, hla⟩
      rw [hla] at hj
      have hjx : j ≠ x := by
        intro hh
        rw [hh] at hj
        rw [show JSMap.hasKey (JSMap.del na0.links x) x = false from
          (JSMap.hasKey_false_iff_lookup _ _).mpr (JSMap.lookup_del_self _ _)] at hj
        cases hj
      have hj2 : JSMap.hasKey na0.links j = true := by
        unfold JSMap.hasKey at hj ⊢
        rw [JSMap.lookup_del_ne _ _ _ hjx] at hj
        exact hj
      have hjn : JSMap.hasKey net.nodes j = true := hcl a na0 j ha0 hj2
      rcases (JSMap.hasKey_iff_lookup _ _).mp hjn with ⟨nj0, hnj0⟩
      show JSMap.hasKey
        (JSMap.del (net.nodes.map (fun e => (e.1, removeNodeCleanup x e.2))) x) j = true
      refine (JSMap.hasKey_iff_lookup _ _).mpr ⟨removeNodeCleanup x nj0, ?_⟩
      rw [JSMap.lookup_del_ne _ _ _ hjx,
        JSMap.lookup_map_value net.nodes (fun _ v => removeNodeCleanup x v), hnj0]
      rfl
    · intro a ha
      exact hfr a (hkeys a ha).2
  · rw [if_neg hx]
    exact ⟨hsym, hcl, hfr⟩

theorem hasKey_modifyNode (net : Network) (k : Nat) (f : Node → Node) (j : Nat) :
    JSMap.hasKey (net.modifyNode k f).nodes j = JSMap.hasKey net.nodes j := by
  unfold JSMap.hasKey
  have hmod := getNode_modifyNode net k f j
  unfold Network.getNode at hmod
  rw [hmod]
  by_cases hj : j = k
  · rw [if_pos hj, hj]
    cases JSMap.lookup net.nodes k <;> rfl
  · rw [if_neg hj]

theorem lookup_addLink_self (n : Node) (t c : Nat) :
    JSMap.lookup (n.addLink t c).links t =
      some ((JSMap.lookup n.links t).getD c) := by
  rw [addLink_links]
  cases h : JSMap.lookup n.links t with
  | none =>
    rw [if_neg (by simp [JSMap.hasKey, h]), JSMap.lookup_set_self]
    rfl
  | some c0 =>
    rw [if_pos (by simp [JSMap.hasKey, h]), h]
    rfl

theorem netInv_addLink_pair (net : Network) (a b c : Nat) (na nb : Node)
    (hA : net.getNode a = some na) (hB : net.getNode b = some nb) (h : NetInv net) :
    NetInv ((net.modifyNode a (fun n => n.addLink b c)).modifyNode b
      (fun n => n.addLink a c)) := by
  obtain ⟨hsym, hcl, hfr⟩ := h
  set net2 := (net.modifyNode a (fun n => n.addLink b c)).modifyNode b
    (fun n => n.addLink a c) with hnet2
  have hkeys : ∀ j, JSMap.hasKey net2.nodes j = JSMap.hasKey net.nodes j := by
    intro j
    rw [hnet2, hasKey_modifyNode, hasKey_modifyNode]
  have hnext : net2.nextNodeId = net.nextNodeId := by
    rw [hnet2, nextNodeId_modifyNode, nextNodeId_modifyNode]
  have hAk : JSMap.hasKey net.nodes a = true :=
    (JSMap.hasKey_iff_lookup _ _).mpr ⟨na, hA⟩
  have hBk : JSMap.hasKey net.nodes b = true :=
    (JSMap.hasKey_iff_lookup _ _).mpr ⟨nb, hB⟩
  by_cases hab : a = b
  · -- self-link creation: only node a changes, and only at key a
    have hba : nb = na := by
      rw [hab, hB] at hA
      exact Option.some_inj.mp hA
    have hg : ∀ j, JSMap.lookup net2.nodes j =
        if j = a then some ((na.addLink a c).addLink a c) else net.getNode j := by
      intro j
      show net2.getNode j =
        if j = a then some ((na.addLink a c).addLink a c) else net.getNode j
      rw [hnet2]
      simp only [getNode_modifyNode]
      by_cases hj : j = a <;> simp [hj, ← hab, hA]
    refine ⟨?_, ?_, ?_⟩
    · intro x nx y ny hx hy hxy
      have hx2 := (hg x).symm.trans hx
      have hy2 := (hg y).symm.trans hy
      by_cases hxa : x = a
      · rw [if_pos hxa] at hx2
        have hnx : nx = (na.addLink a c).addLink a c := (Option.some_inj.mp hx2).symm
        have hya : y ≠ a := fun hh => hxy (hxa.trans hh.symm)
        rw [if_neg hya] at hy2
        have hlx : JSMap.lookup nx.links y = JSMap.lookup na.links y := by
          rw [hnx, lookup_addLink_ne _ _ _ _ hya, lookup_addLink_ne _ _ _ _ hya]
        rw [hlx, hxa]
        exact hsym a na y ny hA hy2 (fun hh => hya hh.symm)
      · rw [if_neg hxa] at hx2
        by_cases hya : y = a
        · rw [if_pos hya] at hy2
          have hny : ny = (na.addLink a c).addLink a c := (Option.some_inj.mp hy2).symm
          have hly : JSMap.lookup ny.links x = JSMap.lookup na.links x := by
            rw [hny, lookup_addLink_ne _ _ _ _ hxa, lookup_addLink_ne _ _ _ _ hxa]
          rw [hly, hya]
          exact hsym x nx a na hx2 hA hxa
        · rw [if_neg hya] at hy2
          exact hsym x nx y ny hx2 hy2 hxy
    · intro x nx j hx hj
      have hx2 := (hg x).symm.trans hx
      rw [hkeys]
      by_cases hxa : x = a
      · rw [if_pos hxa] at hx2
        have hnx : nx = (na.addLink a c).addLink a c := (Option.some_inj.mp hx2).symm
        rw [hnx] at hj
        rcases (hasKey_addLink _ _ _ _).mp hj with hj1 | hj1
        · rw [hj1]
          exact hAk
        · rcases (hasKey_addLink _ _ _ _).mp hj1 with hj2 | hj2
          · rw [hj2]
            exact hAk
          · exact hcl a na j hA hj2
      · rw [if_neg hxa] at hx2
        exact hcl x nx j hx2 hj
    · intro x hx
      rw [hnext]
      exact hfr x (by rw [← hkeys]; exact hx)
  · -- a ≠ b: a gains b ↦ c and b gains a ↦ c (unless already present)
    have hga : JSMap.lookup net2.nodes a = some (na.addLink b c) := by
      show net2.getNode a = some (na.addLink b c)
      rw [hnet2]
      simp only [getNode_modifyNode]
      simp [hab, hA]
    have hgb : JSMap.lookup net2.nodes b = some (nb.addLink a c) := by
      show net2.getNode b = some (nb.addLink a c)
      rw [hnet2]
      simp only [getNode_modifyNode]
      simp [Ne.symm hab, hB]
    have hgo : ∀ j, j ≠ a → j ≠ b →
        JSMap.lookup net2.nodes j = net.getNode j := by
      intro j hja hjb
      show net2.getNode j = net.getNode j
      rw [hnet2]
      simp only [getNode_modifyNode]
      simp [hja, hjb]
    refine ⟨?_, ?_, ?_⟩
    · intro x nx y ny hx hy hxy
      by_cases hxa : x = a
      · have hnx : nx = na.addLink b c := by
          rw [hxa, hga] at hx
          exact (Option.some_inj.mp hx).symm
        by_cases hyb : y = b
        · have hny : ny = nb.addLink a c := by
            rw [hyb, hgb] at hy
            exact (Option.some_inj.mp hy).symm
          rw [hnx, hny, hxa, hyb, lookup_addLink_self, lookup_addLink_self,
            hsym a na b nb hA hB hab]
        · have hya : y ≠ a := fun hh => hxy (hxa.trans hh.symm)
          have hy2 : net.getNode y = some ny := (hgo y hya hyb).symm.trans hy
          rw [hnx, lookup_addLink_ne _ _ _ _ hyb, hxa]
          exact hsym a na y ny hA hy2 (fun hh => hya hh.symm)
      · by_cases hxb : x = b
        · have hnx : nx = nb.addLink a c := by
            rw [hxb, hgb] at hx
            exact (Option.some_inj.mp hx).symm
          by_cases hya : y = a
          · have hny : ny = na.addLink b c := by
              rw [hya, hga] at hy
              exact (Option.some_inj.mp hy).symm
            rw [hnx, hny, hxb, hya, lookup_addLink_self, lookup_addLink_self,
              hsym a na b nb hA hB hab]
          · have hyb : y ≠ b := fun hh => hxy (hxb.trans hh.symm)
            have hy2 : net.getNode y = some ny := (hgo y hya hyb).symm.trans hy
            rw [hnx, lookup_addLink_ne _ _ _ _ hya, hxb]
            exact hsym b nb y ny hB hy2 (fun hh => hyb hh.symm)
        · have hx2 : net.getNode x = some nx := (hgo x hxa hxb).symm.trans hx
          by_cases hya : y = a
          · have hny : ny = na.addLink b c := by
              rw [hya, hga] at hy
              exact (Option.some_inj.mp hy).symm
            rw [hny, lookup_addLink_ne _ _ _ _ hxb, hya]
            exact hsym x nx a na hx2 hA hxa
          · by_cases hyb : y = b
            · have hny : ny = nb.addLink a c := by
                rw [hyb, hgb] at hy
                exact (Option.some_inj.mp hy).symm
              rw [hny, lookup_addLink_ne _ _ _ _ hxa, hyb]
              exact hsym x nx b nb hx2 hB hxb
            · have hy2 : net.getNode y = some ny := (hgo y hya hyb).symm.trans hy
              exact hsym x nx y ny hx2 hy2 hxy
    · intro x nx j hx hj
      rw [hkeys]
      by_cases hxa : x = a
      · have hnx : nx = na.addLink b c := by
          rw [hxa, hga] at hx
          exact (Option.some_inj.mp hx).symm
        rw [hnx] at hj
        rcases (hasKey_addLink _ _ _ _).mp hj with hj1 | hj1
        · rw [hj1]
          exact hBk
        · exact hcl a na j hA hj1
      · by_cases hxb : x = b
        · have hnx : nx = nb.addLink a c := by
            rw [hxb, hgb] at hx
            exact (Option.some_inj.mp hx).symm
          rw [hnx] at hj
          rcases (hasKey_addLink _ _ _ _).mp hj with hj1 | hj1
          · rw [hj1]
            exact hAk
          · exact hcl b nb j hB hj1
        · have hx2 : net.getNode x = some nx := (hgo x hxa hxb).symm.trans hx
          exact hcl x nx j hx2 hj
    · intro x hx
      rw [hnext]
      exact hfr x (by rw [← hkeys]; exact hx)

theorem netInv_createLink (net : Network) (a b c : Nat) (h : NetInv net) :
    NetInv (net.createLink a b c).1 := by
  unfold Network.createLink
  cases hA : net.getNode a with
  | none =>
    cases hB : net.getNode b with
    | none => exact h
    | some nb => exact h
  | some na =>
    cases hB : net.getNode b with
    | none => exact h
    | some nb =>
      show NetInv ((((net.modifyNode a (fun n => n.addLink b c)).modifyNode b
        (fun n => n.addLink a c)).modifyNode a Node.calculateRoutingTable).modifyNode b
          Node.calculateRoutingTable)
      exact netInv_modifyNode_linksEq _ _ _ calculateRoutingTable_links
        (netInv_modifyNode_linksEq _ _ _ calculateRoutingTable_links
          (netInv_addLink_pair net a b c na nb hA hB ⟨h.1, h.2.1, h.2.2⟩))

theorem lookup_removeLink_ne (n : Node) (t j : Nat) (hj : j ≠ t) :
    JSMap.lookup (n.removeLink t).links j = JSMap.lookup n.links j := by
  rw [removeLink_links]
  exact JSMap.lookup_del_ne _ _ _ hj

theorem lookup_removeLink_self (n : Node) (t : Nat) :
    JSMap.lookup (n.removeLink t).links t = none := by
  rw [removeLink_links]
  exact JSMap.lookup_del_self _ _

theorem hasKey_removeLink (n : Node) (t j : Nat)
    (h : JSMap.hasKey (n.removeLink t).links j = true) :
    JSMap.hasKey n.links j = true := by
  by_cases hj : j = t
  · rw [JSMap.hasKey_iff_lookup] at h
    rcases h with ⟨v, hv⟩
    rw [hj, lookup_removeLink_self] at hv
    cases hv
  · rw [JSMap.hasKey_iff_lookup] at h ⊢
    rcases h with ⟨v, hv⟩
    rw [lookup_removeLink_ne _ _ _ hj] at hv
    exact ⟨v, hv⟩

theorem netInv_removeLink_pair (net : Network) (a b : Nat) (na nb : Node)
    (hA : net.getNode a = some na) (hB : net.getNode b = some nb) (h : NetInv net) :
    NetInv ((net.modifyNode a (fun n => n.removeLink b)).modifyNode b
      (fun n => n.removeLink a)) := by
  obtain ⟨hsym, hcl, hfr⟩ := h
  set net2 := (net.modifyNode a (fun n => n.removeLink b)).modifyNode b
    (fun n => n.removeLink a) with hnet2
  have hkeys : ∀ j, JSMap.hasKey net2.nodes j = JSMap.hasKey net.nodes j := by
    intro j
    rw [hnet2, hasKey_modifyNode, hasKey_modifyNode]
  have hnext : net2.nextNodeId = net.nextNodeId := by
    rw [hnet2, nextNodeId_modifyNode, nextNodeId_modifyNode]
  by_cases hab : a = b
  · have hg : ∀ j, JSMap.lookup net2.nodes j =
        if j = a then some ((na.removeLink a).removeLink a) else net.getNode j := by
      intro j
      show net2.getNode j =
        if j = a then some ((na.removeLink a).removeLink a) else net.getNode j
      rw [hnet2]
      simp only [getNode_modifyNode]
      by_cases hj : j = a <;> simp [hj, ← hab, hA]
    refine ⟨?_, ?_, ?_⟩
    · intro x nx y ny hx hy hxy
      have hx2 := (hg x).symm.trans hx
      have hy2 := (hg y).symm.trans hy
      by_cases hxa : x = a
      · rw [if_pos hxa] at hx2
        have hnx : nx = (na.removeLink a).removeLink a := (Option.some_inj.mp hx2).symm
        have hya : y ≠ a := fun hh => hxy (hxa.trans hh.symm)
        rw [if_neg hya] at hy2
        have hlx : JSMap.lookup nx.links y = JSMap.lookup na.links y := by
          rw [hnx, lookup_removeLink_ne _ _ _ hya, lookup_removeLink_ne _ _ _ hya]
        rw [hlx, hxa]
        exact hsym a na y ny hA hy2 (fun hh => hya hh.symm)
      · rw [if_neg hxa] at hx2
        by_cases hya : y = a
        · rw [if_pos hya] at hy2
          have hny : ny = (na.removeLink a).removeLink a := (Option.some_inj.mp hy2).symm
          have hly : JSMap.lookup ny.links x = JSMap.lookup na.links x := by
            rw [hny, lookup_removeLink_ne _ _ _ hxa, lookup_removeLink_ne _ _ _ hxa]
          rw [hly, hya]
          exact hsym x nx a na hx2 hA hxa
        · rw [if_neg hya] at hy2
          exact hsym x nx y ny hx2 hy2 hxy
    · intro x nx j hx hj
      have hx2 := (hg x).symm.trans hx
      rw [hkeys]
      by_cases hxa : x = a
      · rw [if_pos hxa] at hx2
        have hnx : nx = (na.removeLink a).removeLink a := (Option.some_inj.mp hx2).symm
        rw [hnx] at hj
        exact hcl a na j hA (hasKey_removeLink _ _ _ (hasKey_removeLink _ _ _ hj))
      · rw [if_neg hxa] at hx2
        exact hcl x nx j hx2 hj
    · intro x hx
      rw [hnext]
      exact hfr x (by rw [← hkeys]; exact hx)
  · have hga : JSMap.lookup net2.nodes a = some (na.removeLink b) := by
      show net2.getNode a = some (na.removeLink b)
      rw [hnet2]
      simp only [getNode_modifyNode]
      simp [hab, hA]
    have hgb : JSMap.lookup net2.nodes b = some (nb.removeLink a) := by
      show net2.getNode b = some (nb.removeLink a)
      rw [hnet2]
      simp only [getNode_modifyNode]
      simp [Ne.symm hab, hB]
    have hgo : ∀ j, j ≠ a → j ≠ b →
        JSMap.lookup net2.nodes j = net.getNode j := by
      intro j hja hjb
      show net2.getNode j = net.getNode j
      rw [hnet2]
      simp only [getNode_modifyNode]
      simp [hja, hjb]
    refine ⟨?_, ?_, ?_⟩
    · intro x nx y ny hx hy hxy
      by_cases hxa : x = a
      · have hnx : nx = na.removeLink b := by
          rw [hxa, hga] at hx
          exact (Option.some_inj.mp hx).symm
        by_cases hyb : y = b
        · have hny : ny = nb.removeLink a := by
            rw [hyb, hgb] at hy
            exact (Option.some_inj.mp hy).symm
          rw [hnx, hny, hxa, hyb, lookup_removeLink_self, lookup_removeLink_self]
        · have hya : y ≠ a := fun hh => hxy (hxa.trans hh.symm)
          have hy2 : net.getNode y = some ny := (hgo y hya hyb).symm.trans hy
          rw [hnx, lookup_removeLink_ne _ _ _ hyb, hxa]
          exact hsym a na y ny hA hy2 (fun hh => hya hh.symm)
      · by_cases hxb : x = b
        · have hnx : nx = nb.removeLink a := by
            rw [hxb, hgb] at hx
            exact (Option.some_inj.mp hx).symm
          by_cases hya : y = a
          · have hny : ny = na.removeLink b := by
              rw [hya, hga] at hy
              exact (Option.some_inj.mp hy).symm
            rw [hnx, hny, hxb, hya, lookup_removeLink_self, lookup_removeLink_self]
          · have hyb : y ≠ b := fun hh => hxy (hxb.trans hh.symm)
            have hy2 : net.getNode y = some ny := (hgo y hya hyb).symm.trans hy
            rw [hnx, lookup_removeLink_ne _ _ _ hya, hxb]
            exact hsym b nb y ny hB hy2 (fun hh => hyb hh.symm)
        · have hx2 : net.getNode x = some nx := (hgo x hxa hxb).symm.trans hx
          by_cases hya : y = a
          · have hny : ny = na.removeLink b := by
              rw [hya, hga] at hy
              exact (Option.some_inj.mp hy).symm
            rw [hny, lookup_removeLink_ne _ _ _ hxb, hya]
            exact hsym x nx a na hx2 hA hxa
          · by_cases hyb : y = b
            · have hny : ny = nb.removeLink a := by
                rw [hyb, hgb] at hy
                exact (Option.some_inj.mp hy).symm
              rw [hny, lookup_removeLink_ne _ _ _ hxa, hyb]
              exact hsym x nx b nb hx2 hB hxb
            · have hy2 : net.getNode y = some ny := (hgo y hya hyb).symm.trans hy
              exact hsym x nx y ny hx2 hy2 hxy
    · intro x nx j hx hj
      rw [hkeys]
      by_cases hxa : x = a
      · have hnx : nx = na.removeLink b := by
          rw [hxa, hga] at hx
          exact (Option.some_inj.mp hx).symm
        rw [hnx] at hj
        exact hcl a na j hA (hasKey_removeLink _ _ _ hj)
      · by_cases hxb : x = b
        · have hnx : nx = nb.removeLink a := by
            rw [hxb, hgb] at hx
            exact (Option.some_inj.mp hx).symm
          rw [hnx] at hj
          exact hcl b nb j hB (hasKey_removeLink _ _ _ hj)
        · have hx2 : net.getNode x = some nx := (hgo x hxa hxb).symm.trans hx
          exact hcl x nx j hx2 hj
    · intro x hx
      rw [hnext]
      exact hfr x (by rw [← hkeys]; exact hx)

theorem netInv_removeLink (net : Network) (a b : Nat) (h : NetInv net) :
    NetInv (net.removeLink a b).1 := by
  unfold Network.removeLink
  cases hA : net.getNode a with
  | none =>
    cases hB : net.getNode b with
    | none => exact h
    | some nb => exact h
  | some na =>
    cases hB : net.getNode b with
    | none => exact h
    | some nb =>
      show NetInv ((((net.modifyNode a (fun n => n.removeLink b)).modifyNode b
        (fun n => n.removeLink a)).modifyNode a Node.calculateRoutingTable).modifyNode b
          Node.calculateRoutingTable)
      exact netInv_modifyNode_linksEq _ _ _ calculateRoutingTable_links
        (netInv_modifyNode_linksEq _ _ _ calculateRoutingTable_links
          (netInv_removeLink_pair net a b na nb hA hB ⟨h.1, h.2.1, h.2.2⟩))

theorem netInv_hello (net : Network) (h : NetInv net) :
    NetInv (net.simulateHelloPackets).1 :=
  netInv_of_same_views net _ (fun _ => rfl) rfl h

/-- The invariant transfers along an equality of link views. -/
theorem netInv_of_linkMap (net net2 : Network)
    (hn : ∀ j, (net2.getNode j).map Node.links = (net.getNode j).map Node.links)
    (hid : net2.nextNodeId = net.nextNodeId)
    (h : NetInv net) : NetInv net2 := by
  obtain ⟨hsym, hcl, hfr⟩ := h
  have hkeys : ∀ j, JSMap.hasKey net2.nodes j = JSMap.hasKey net.nodes j := by
    intro j
    have hj := hn j
    unfold Network.getNode at hj
    unfold JSMap.hasKey
    cases h2 : JSMap.lookup net2.nodes j <;> cases h0 : JSMap.lookup net.nodes j <;>
      rw [h2, h0] at hj <;> simp at hj ⊢
  have hlinks : ∀ j nj, JSMap.lookup net2.nodes j = some nj →
      ∃ n0, JSMap.lookup net.nodes j = some n0 ∧ nj.links = n0.links := by
    intro j nj hj
    have hv := hn j
    unfold Network.getNode at hv
    rw [hj] at hv
    cases h0 : JSMap.lookup net.nodes j with
    | none =>
      rw [h0] at hv
      simp at hv
    | some n0 =>
      rw [h0] at hv
      simp at hv
      exact ⟨n0, rfl, hv⟩
  refine ⟨?_, ?_, ?_⟩
  · intro a na b nb ha hb hab
    rcases hlinks a na ha with ⟨na0, ha0, hla⟩
    rcases hlinks b nb hb with ⟨nb0, hb0, hlb⟩
    rw [hla, hlb]
    exact hsym a na0 b nb0 ha0 hb0 hab
  · intro a na j ha hj
    rcases hlinks a na ha with ⟨na0, ha0, hla⟩
    rw [hla] at hj
    rw [hkeys]
    exact hcl a na0 j ha0 hj
  · intro a ha
    rw [hid]
    exact hfr a (by rw [← hkeys]; exact ha)

theorem deliverStep_linkMap (acc : Network × List Packet) (p : Packet) (j : Nat) :
    ((deliverStep acc p).1.getNode j).map Node.links =
      (acc.1.getNode j).map Node.links := by
  cases htn : acc.1.getNode p.pto with
  | none =>
    have hds : deliverStep acc p = acc := by
      unfold deliverStep
      rw [htn]
    rw [hds]
  | some tn =>
    cases hact : tn.active with
    | false =>
      have hds : deliverStep acc p = acc := by
        unfold deliverStep
        rw [htn]
        simp [hact]
      rw [hds]
    | true =>
      have hds : (deliverStep acc p).1 =
          acc.1.setNode p.pto (tn.receiveLSP p acc.1).1 := by
        unfold deliverStep
        rw [htn]
        simp [hact]
      rw [hds]
      by_cases hj : j = p.pto
      · rw [hj]
        have h1 : (acc.1.setNode p.pto (tn.receiveLSP p acc.1).1).getNode p.pto =
            some (tn.receiveLSP p acc.1).1 := JSMap.lookup_set_self _ _ _
        rw [h1, htn]
        simp [receiveLSP_links]
      · have h1 : (acc.1.setNode p.pto (tn.receiveLSP p acc.1).1).getNode j =
            acc.1.getNode j := JSMap.lookup_set_ne _ _ _ _ hj
        rw [h1]

theorem deliverStep_nextNodeId (acc : Network × List Packet) (p : Packet) :
    (deliverStep acc p).1.nextNodeId = acc.1.nextNodeId := by
  cases htn : acc.1.getNode p.pto with
  | none =>
    have hds : deliverStep acc p = acc := by
      unfold deliverStep
      rw [htn]
    rw [hds]
  | some tn =>
    cases hact : tn.active with
    | false =>
      have hds : deliverStep acc p = acc := by
        unfold deliverStep
        rw [htn]
        simp [hact]
      rw [hds]
    | true =>
      have hds : (deliverStep acc p).1 =
          acc.1.setNode p.pto (tn.receiveLSP p acc.1).1 := by
        unfold deliverStep
        rw [htn]
        simp [hact]
      rw [hds]
      rfl

theorem deliverFold_linkMap (ps : List Packet) :
    ∀ (acc : Network × List Packet) (j : Nat),
      ((ps.foldl deliverStep acc).1.getNode j).map Node.links =
        (acc.1.getNode j).map Node.links := by
  induction ps with
  | nil => intro acc j; rfl
  | cons p rest ih =>
    intro acc j
    rw [List.foldl_cons, ih (deliverStep acc p) j, deliverStep_linkMap]

theorem deliverFold_nextNodeId (ps : List Packet) :
    ∀ acc : Network × List Packet,
      (ps.foldl deliverStep acc).1.nextNodeId = acc.1.nextNodeId := by
  induction ps with
  | nil => intro acc; rfl
  | cons p rest ih =>
    intro acc
    rw [List.foldl_cons, ih (deliverStep acc p), deliverStep_nextNodeId]

theorem netInv_flood (net : Network) (h : NetInv net) :
    NetInv (net.simulateLSPs).1 := by
  refine netInv_of_linkMap net (net.simulateLSPs).1 ?_ ?_ h
  · intro j
    show (((net.generateLSPs.foldl deliverStep (net, [])).1.getNode j).map Node.links) =
      (net.getNode j).map Node.links
    exact deliverFold_linkMap net.generateLSPs (net, []) j
  · show (net.generateLSPs.foldl deliverStep (net, [])).1.nextNodeId = net.nextNodeId
    exact deliverFold_nextNodeId net.generateLSPs (net, [])

theorem netInv_applyOp (net : Network) (op : NetOp) (h : NetInv net) :
    NetInv (applyOp net op) := by
  cases op with
  | opCreateNode => exact netInv_createNode net h
  | opRemoveNode i => exact netInv_removeNode net i h
  | opCreateLink a b c => exact netInv_createLink net a b c h
  | opRemoveLink a b => exact netInv_removeLink net a b h
  | opHello => exact netInv_hello net h
  | opFlood => exact netInv_flood net h

theorem netInv_runOps (ops : List NetOp) :
    ∀ net, NetInv net → NetInv (runOps net ops) := by
  induction ops with
  | nil => intro net h; exact h
  | cons op rest ih => intro net h; exact ih _ (netInv_applyOp net op h)

/-- C6 (confirmed): link symmetry is an invariant of every state reachable
from the empty Network by any sequence of engine operations (createNode,
removeNode, createLink, removeLink, discovery, flooding): two distinct
nodes always show identical link-table entries for each other. -/
theorem C6_link_symmetry_invariant (ops : List NetOp) (a b : Nat) (na nb : Node)
    (hab : a ≠ b)
    (ha : JSMap.lookup (runOps Network.new ops).nodes a = some na)
    (hb : JSMap.lookup (runOps Network.new ops).nodes b = some nb) :
    JSMap.lookup na.links b = JSMap.lookup nb.links a :=
  (netInv_runOps ops Network.new netInv_new).1 a na b nb ha hb hab

/-- Witness for C6 at a concrete input. -/
theorem C6_link_symmetry_invariant_witness :
    JSMap.lookup symDemoNode1.links 2 = JSMap.lookup symDemoNode2.links 1 :=
  C6_link_symmetry_invariant symDemoOps 1 2 symDemoNode1 symDemoNode2
    (by decide) (by decide) (by decide)

/-- Witness for C7 at a concrete input: node 5 exists in the initial
topology and its removal purges it everywhere. -/
theorem C7_removeNode_purges_all_references_witness :
    JSMap.hasKey initialNetwork.nodes 5 = true ∧
    ((initialNetwork.removeNode 5).2 = true ∧
     JSMap.hasKey (initialNetwork.removeNode 5).1.nodes 5 = false ∧
     ∀ k n2, JSMap.lookup (initialNetwork.removeNode 5).1.nodes k = some n2 →
       JSMap.lookup n2.links 5 = none ∧
       JSMap.lookup n2.topologyDatabase 5 = none ∧
       (∀ o e, JSMap.lookup n2.topologyDatabase o = some e →
         JSMap.lookup e 5 = none) ∧
       JSMap.lookup n2.routingTable 5 = none) :=
  ⟨by decide, C7_removeNode_purges_all_references initialNetwork 5 (by decide)⟩

end LSProto
